import Mathlib

/-!
# Tegra MSENC firmware boot: a shallow embedding of `msenc.c`

The development follows `drivers/video/tegra/host/msenc/msenc.c`:

* `msenc_setup_ucode_image` decodes the two nested headers of a firmware image;
* `msenc_dma_wait_idle`, `msenc_wait_idle`, `msenc_dma_pa_to_internal_256b` and
  `msenc_boot` drive the accelerator through its registers;
* `msenc_read_ucode` and `nvhost_msenc_deinit` acquire and release the staging
  resources.

Conventions.  `u32` values are natural numbers reduced `% 2 ^ 32` wherever the C
code can wrap.  Memory is byte addressed and the host is little-endian (as the
Tegra SoCs this driver targets are), so `le32_to_cpu` is the identity and a
`u32` load at byte address `a` combines the bytes `a .. a + 3`.  Everything the
driver does to the outside world (register accesses, delays, log lines, calls
into the memory manager) is recorded, in program order, in an event trace.
-/

namespace Msenc

/-! ## Error numbers (`errno-base.h`, `errno.h`) -/

def ENOENT : Int := 2
def ENOMEM : Int := 12
def EINVAL : Int := 22
def ENOMEDIUM : Int := 123

/-! ## Memory and firmware images -/

/-- Byte-addressed memory; addresses are byte offsets from `ucode_ptr`. -/
abbrev Mem := Nat → Nat

/-- A `u32` load at byte address `a` on the little-endian host. -/
def load32 (mem : Mem) (a : Nat) : Nat :=
  mem a % 256 + 256 * (mem (a + 1) % 256) + 65536 * (mem (a + 2) % 256)
    + 16777216 * (mem (a + 3) % 256)

/-- A `u32` store of `v` at byte address `a` on the little-endian host. -/
def store32 (mem : Mem) (a v : Nat) : Mem := fun i =>
  if i = a then v % 256
  else if i = a + 1 then v / 256 % 256
  else if i = a + 2 then v / 65536 % 256
  else if i = a + 3 then v / 16777216 % 256
  else mem i

/-- The `struct firmware` handed over by the loader: `data` are the bytes of
the blob and `size` is their number. -/
structure firmware where
  data : List Nat
deriving Repr, DecidableEq

def firmware.size (fw : firmware) : Nat := fw.data.length

/-- Byte `i` of the blob. -/
def firmware.byte (fw : firmware) (i : Nat) : Nat := fw.data.getD i 0 % 256

/-- The little-endian `u32` held by the blob at byte offset `a`. -/
def firmware.word (fw : firmware) (a : Nat) : Nat := load32 fw.byte a

/-- On the little-endian host the conversion is the identity. -/
def le32_to_cpu (v : Nat) : Nat := v

/-- The `os` member of `struct msenc`. -/
structure msenc_os where
  size : Nat
  bin_data_offset : Nat
  data_offset : Nat
  data_size : Nat
  code_offset : Nat
deriving Repr, DecidableEq

/-! ### Header layouts

`msenc.h`, which declares `struct msenc_ucode_bin_header_v1` and
`struct msenc_ucode_os_header_v1`, is not among the sources; the members are
laid out in the order in which the firmware-format table of the specification
lists them, each a `u32`. -/

/-- Modelled from the spec: byte offset of `bin_magic` in
`struct msenc_ucode_bin_header_v1` (declared in `msenc.h`, which is missing);
the format table puts the magic at position 0. -/
def bin_magic_off : Nat := 0

/-- Modelled from the spec: byte offset of `bin_ver`, second member in the
format table (`msenc.h` is missing). -/
def bin_ver_off : Nat := 4

/-- Modelled from the spec: byte offset of `bin_size`, third member in the
format table (`msenc.h` is missing). -/
def bin_size_off : Nat := 8

/-- Modelled from the spec: byte offset of `os_bin_header_offset`, fourth member
in the format table (`msenc.h` is missing). -/
def os_bin_header_offset_off : Nat := 12

/-- Modelled from the spec: byte offset of `os_bin_data_offset`, fifth member in
the format table (`msenc.h` is missing). -/
def os_bin_data_offset_off : Nat := 16

/-- Modelled from the spec: byte offset of `os_bin_size`, sixth member in the
format table (`msenc.h` is missing). -/
def os_bin_size_off : Nat := 20

/-- Number of bytes the six `u32` members of the binary header occupy. -/
def bin_header_bytes : Nat := 24

/-- Modelled from the spec: byte offset of `os_code_offset` in
`struct msenc_ucode_os_header_v1` (declared in `msenc.h`, which is missing). -/
def os_code_offset_off : Nat := 0

/-- Modelled from the spec: byte offset of `os_code_size` in the OS header
(`msenc.h` is missing). -/
def os_code_size_off : Nat := 4

/-- Modelled from the spec: byte offset of `os_data_offset` in the OS header
(`msenc.h` is missing). -/
def os_data_offset_off : Nat := 8

/-- Modelled from the spec: byte offset of `os_data_size` in the OS header
(`msenc.h` is missing). -/
def os_data_size_off : Nat := 12

/-- Modelled from the spec: byte offset of `num_apps`, the declared application
count of the OS header (`msenc.h` is missing). -/
def num_apps_off : Nat := 16

/-- Number of bytes occupied by the five `u32` members of the OS header that
`msenc_setup_ucode_image` names (`os_code_offset`, `os_code_size`,
`os_data_offset`, `os_data_size`, `num_apps`). -/
def os_header_bytes : Nat := 20

/-- The copy loop at the head of `msenc_setup_ucode_image`:
`for (w = 0; w < size / sizeof(u32); w++) ucode_ptr[w] = le32_to_cpu(data[w])`. -/
def copy_image (fw : firmware) (ucode_ptr : Mem) : Mem :=
  (List.range (fw.size / 4)).foldl
    (fun mem w => store32 mem (4 * w) (le32_to_cpu (load32 fw.byte (4 * w)))) ucode_ptr

/-- What a call of `msenc_setup_ucode_image` leaves behind: the return value,
`m->os`, the staging buffer, the `dev_err` lines, and the byte offsets (from
`ucode_ptr`) of the header loads that decide the control flow or feed `m->os`
(the `dev_dbg` lines only print). -/
structure setup_result where
  ret : Int
  os : msenc_os
  ucode : Mem
  log : List String
  loads : List Nat

/-- The function `msenc_setup_ucode_image`: `os` is `m->os` on entry, `ucode_ptr` the
content of the mapped staging buffer on entry, `fw` the firmware blob. -/
def msenc_setup_ucode_image (os : msenc_os) (ucode_ptr : Mem) (fw : firmware) :
    setup_result :=
  let ucode := copy_image fw ucode_ptr
  if load32 ucode bin_magic_off ≠ 0x10de then
    { ret := -EINVAL, os := os, ucode := ucode,
      log := ["failed to get firmware magic"],
      loads := [bin_magic_off] }
  else if load32 ucode bin_ver_off ≠ 1 then
    { ret := -ENOENT, os := os, ucode := ucode,
      log := ["unsupported firmware version"],
      loads := [bin_magic_off, bin_ver_off] }
  else if load32 ucode bin_size_off > fw.size then
    { ret := -EINVAL, os := os, ucode := ucode,
      log := ["ucode image size inconsistency"],
      loads := [bin_magic_off, bin_ver_off, bin_size_off] }
  else
    let os_header := load32 ucode os_bin_header_offset_off
    { ret := 0,
      os := { size := load32 ucode os_bin_size_off,
              bin_data_offset := load32 ucode os_bin_data_offset_off,
              code_offset := load32 ucode (os_header + os_code_offset_off),
              data_offset := load32 ucode (os_header + os_data_offset_off),
              data_size := load32 ucode (os_header + os_data_size_off) },
      ucode := ucode,
      log := [],
      loads := [bin_magic_off, bin_ver_off, bin_size_off, os_bin_header_offset_off,
                os_bin_size_off, os_bin_data_offset_off,
                os_header + os_code_offset_off, os_header + os_data_offset_off,
                os_header + os_data_size_off] }

/-- The bytes of a `u32`, least significant first. -/
def u32_bytes (v : Nat) : List Nat :=
  [v % 256, v / 256 % 256, v / 65536 % 256, v / 16777216 % 256]

/-- An image made of the given `u32` words. -/
def image_of_words (ws : List Nat) : firmware := ⟨ws.flatMap u32_bytes⟩

/-! ### Well-formed images and sample images -/

/-- A well-formed image: magic and version are the supported ones, the declared
size does not exceed the blob and the OS header found at `os_bin_header_offset`
lies inside the blob. -/
def valid_image (fw : firmware) : Prop :=
  fw.word bin_magic_off = 0x10de ∧
  fw.word bin_ver_off = 1 ∧
  fw.word bin_size_off ≤ fw.size ∧
  fw.word os_bin_header_offset_off + os_header_bytes ≤ fw.size

instance (fw : firmware) : Decidable (valid_image fw) := by
  unfold valid_image; infer_instance

/-- A well-formed image: OS header at byte 24, code at 0x100, data at 0x300, 600 data bytes. -/
def fw_good : firmware :=
  image_of_words [0x10de, 1, 44, 24, 44, 0, 0x100, 0x200, 0x300, 600, 0]

/-- A 24 byte image with a wrong magic. -/
def fw_bad_magic : firmware := image_of_words [0xdead, 1, 24, 24, 0, 0]

/-- A 24 byte image with a wrong magic that declares 100 bytes. -/
def fw_bad_magic_oversize : firmware := image_of_words [0xdead, 1, 100, 24, 0, 0]

/-- A 24 byte image of version 2 that declares 100 bytes. -/
def fw_bad_ver_oversize : firmware := image_of_words [0x10de, 2, 100, 24, 0, 0]

/-- A 24 byte image with the right magic and version that declares 100 bytes. -/
def fw_oversize : firmware := image_of_words [0x10de, 1, 100, 24, 0, 0]

/-- A 24 byte image with the right magic, version and size whose
`os_bin_header_offset` is 0x10000. -/
def fw_wild_offset : firmware := image_of_words [0x10de, 1, 24, 0x10000, 0, 0]

def os_zero : msenc_os := ⟨0, 0, 0, 0, 0⟩

/-- A staging buffer that holds zeros. -/
def mem_zero : Mem := fun _ => 0

/-- Memory that holds the byte 0xAB everywhere. -/
def mem_ab : Mem := fun _ => 0xAB

/-! ## Registers, events and the environment -/

/-- The registers `msenc.c` touches, named after their `hw_msenc.h` accessors
(`msenc_dmactl_r()`, `msenc_dmatrfbase_r()`, ...). -/
inductive reg
  | dmactl
  | dmatrfbase
  | dmatrfmoffs
  | dmatrffboffs
  | dmatrfcmd
  | irqmset
  | irqdest
  | itfen
  | idlestate
  | bootvec
  | cpuctl
deriving DecidableEq, Repr

/-- A kernel pointer as the driver tests it: `NULL`, an `ERR_PTR(-errno)`, or
the address of an object. -/
inductive kptr
  | null
  | err (errno : Nat)
  | valid (addr : Nat)
deriving DecidableEq, Repr

/-- Everything observable the driver does, in program order. -/
inductive event
  /-- A call `nvhost_device_writel(dev, r, v)`. -/
  | writel (r : reg) (v : Nat)
  /-- A call `nvhost_device_readl(dev, r)` that returned `v`. -/
  | readl (r : reg) (v : Nat)
  /-- A call `udelay(usecs)`. -/
  | udelay (usecs : Nat)
  /-- A line logged with `dev_err`. -/
  | dev_err (msg : String)
  /-- Entry into `msenc_dma_pa_to_internal_256b` with these arguments. -/
  | dma_pa_to_internal_256b (offset internal_offset : Nat) (imem : Bool)
  /-- A call `nvhost_client_request_firmware`; `found` tells whether it returned a blob. -/
  | request_firmware (found : Bool)
  /-- A call `nvhost_memmgr_alloc` of `size` bytes that returned `ret`. -/
  | memmgr_alloc (size : Nat) (ret : kptr)
  /-- A call `nvhost_memmgr_pin(.., mem_r, ..)` that returned `ret`. -/
  | memmgr_pin (mem_r ret : kptr)
  /-- A call `nvhost_memmgr_mmap(mem_r)` that returned `ret`. -/
  | memmgr_mmap (mem_r ret : kptr)
  /-- A call `nvhost_memmgr_munmap(mem_r, mapped)`. -/
  | memmgr_munmap (mem_r mapped : kptr)
  /-- A call `nvhost_memmgr_unpin(.., mem_r, .., pa)`. -/
  | memmgr_unpin (mem_r pa : kptr)
  /-- A call `nvhost_memmgr_put(.., mem_r)`. -/
  | memmgr_put (mem_r : kptr)
  /-- A call `release_firmware(ucode_fw)`. -/
  | release_firmware
  /-- A call `nvhost_scale_hw_deinit(dev)`. -/
  | scale_hw_deinit
  /-- A call `kfree(m)` on the `struct msenc`. -/
  | kfree_msenc
  /-- A store `m->valid = v` through a pointer that was already passed to `kfree`. -/
  | store_valid_after_kfree (v : Bool)
deriving DecidableEq, Repr

/-- The `struct msenc` of `msenc.h`, with the members `msenc.c` uses. -/
structure msenc where
  valid : Bool
  mem_r : kptr
  os : msenc_os
  pa : kptr
  mapped : kptr
deriving DecidableEq, Repr

/-- The register field macros of `hw_msenc.h` that `msenc.c` uses.  The header
is not among the sources, so their values are parameters. -/
structure hw_msenc where
  dmatrfcmd_size_256b_f : Nat
  dmatrfcmd_imem_true_f : Nat
  dmatrfcmd_idle_v : Nat → Nat
  dmatrfcmd_idle_true_v : Nat
  dmatrffboffs_offs_f : Nat → Nat
  dmatrfmoffs_offs_f : Nat → Nat
  irqmset_ext_f : Nat → Nat
  irqmset_swgen1_set_f : Nat
  irqmset_swgen0_set_f : Nat
  irqmset_exterr_set_f : Nat
  irqmset_halt_set_f : Nat
  irqmset_wdtmr_set_f : Nat
  irqdest_host_ext_f : Nat → Nat
  irqdest_host_swgen1_host_f : Nat
  irqdest_host_swgen0_host_f : Nat
  irqdest_host_exterr_host_f : Nat
  irqdest_host_halt_host_f : Nat
  itfen_mthden_enable_f : Nat
  itfen_ctxen_enable_f : Nat
  bootvec_vec_f : Nat → Nat
  cpuctl_startcpu_true_f : Nat

/-- What surrounds the driver during a boot: the register field encodings, the
device (`device t r` is the value a read of register `r` returns after the history
`t`), the bus address behind a pinned scatter list and the width of
`dma_addr_t`. -/
structure env where
  hw : hw_msenc
  device : List event → reg → Nat
  sg_dma_address : kptr → Nat
  dma_addr_bits : Nat

def MSENC_IDLE_TIMEOUT_DEFAULT : Nat := 10000
def MSENC_IDLE_CHECK_PERIOD : Nat := 10

/-- The call `nvhost_device_writel(dev, r, v)` with a `u32` value. -/
def nvhost_device_writel (t : List event) (r : reg) (v : Nat) : List event :=
  t ++ [event.writel r (v % 2 ^ 32)]

/-- The call `nvhost_device_readl(dev, r)`: the value read and the extended trace. -/
def nvhost_device_readl (E : env) (t : List event) (r : reg) : Nat × List event :=
  (E.device t r % 2 ^ 32, t ++ [event.readl r (E.device t r % 2 ^ 32)])

def udelay (t : List event) (usecs : Nat) : List event := t ++ [event.udelay usecs]

def dev_err (t : List event) (msg : String) : List event := t ++ [event.dev_err msg]

/-- The `do { ... } while (*timeout)` loop of `msenc_dma_wait_idle`, entered
with `*timeout = timeout`.  Returns the return value, the final `*timeout` and
the trace. -/
def msenc_dma_wait_idle_loop (E : env) (timeout : Nat) (t : List event) :
    Int × Nat × List event :=
  let check := min MSENC_IDLE_CHECK_PERIOD timeout
  let rd := nvhost_device_readl E t reg.dmatrfcmd
  let idle_v := E.hw.dmatrfcmd_idle_v rd.1
  if E.hw.dmatrfcmd_idle_true_v = idle_v then (0, timeout, rd.2)
  else
    let t2 := udelay rd.2 MSENC_IDLE_CHECK_PERIOD
    if timeout - check ≠ 0 then msenc_dma_wait_idle_loop E (timeout - check) t2
    else (-1, timeout - check, dev_err t2 "dma idle timeout")
termination_by timeout
decreasing_by
  simp only [MSENC_IDLE_CHECK_PERIOD] at *
  omega

/-- The function `msenc_dma_wait_idle`. -/
def msenc_dma_wait_idle (E : env) (timeout : Nat) (t : List event) :
    Int × Nat × List event :=
  msenc_dma_wait_idle_loop E
    (if timeout = 0 then MSENC_IDLE_TIMEOUT_DEFAULT else timeout) t

/-- The function `msenc_dma_pa_to_internal_256b`; returns what `msenc_dma_wait_idle`
returns.  The first event marks the call and its arguments. -/
def msenc_dma_pa_to_internal_256b (E : env) (offset internal_offset : Nat) (imem : Bool)
    (t : List event) : Int × Nat × List event :=
  let t := t ++ [event.dma_pa_to_internal_256b offset internal_offset imem]
  let cmd := E.hw.dmatrfcmd_size_256b_f
  let pa_offset := E.hw.dmatrffboffs_offs_f offset
  let i_offset := E.hw.dmatrfmoffs_offs_f internal_offset
  let cmd := if imem then cmd ||| E.hw.dmatrfcmd_imem_true_f else cmd
  let t := nvhost_device_writel t reg.dmatrfmoffs i_offset
  let t := nvhost_device_writel t reg.dmatrffboffs pa_offset
  let t := nvhost_device_writel t reg.dmatrfcmd cmd
  msenc_dma_wait_idle E 0 t

/-- The `do { ... } while (*timeout)` loop of `msenc_wait_idle`. -/
def msenc_wait_idle_loop (E : env) (timeout : Nat) (t : List event) :
    Int × Nat × List event :=
  let check := min MSENC_IDLE_CHECK_PERIOD timeout
  let rd := nvhost_device_readl E t reg.idlestate
  if rd.1 = 0 then (0, timeout, rd.2)
  else
    let t2 := udelay rd.2 MSENC_IDLE_CHECK_PERIOD
    if timeout - check ≠ 0 then msenc_wait_idle_loop E (timeout - check) t2
    else (-1, timeout - check, t2)
termination_by timeout
decreasing_by
  simp only [MSENC_IDLE_CHECK_PERIOD] at *
  omega

/-- The function `msenc_wait_idle`. -/
def msenc_wait_idle (E : env) (timeout : Nat) (t : List event) :
    Int × Nat × List event :=
  msenc_wait_idle_loop E
    (if timeout = 0 then MSENC_IDLE_TIMEOUT_DEFAULT else timeout) t

/-- The data loop of `msenc_boot`,
`for (offset = 0; offset < m->os.data_size; offset += 256)`, entered with the
given `offset`; `offset` is a `u32`.  The result of each block transfer is
discarded, as in the source.  `none` when `fuel` iterations did not reach the
exit of the loop. -/
def msenc_boot_data_loop (E : env) (m : msenc) :
    Nat → Nat → List event → Option (List event)
  | 0, _, _ => none
  | fuel + 1, offset, t =>
    if offset < m.os.data_size then
      msenc_boot_data_loop E m fuel ((offset + 256) % 2 ^ 32)
        (msenc_dma_pa_to_internal_256b E ((m.os.data_offset + offset) % 2 ^ 32)
          offset false t).2.2
    else some t

/-- The value `msenc_boot` writes to the interrupt mask set register. -/
def irqmset_value (H : hw_msenc) : Nat :=
  H.irqmset_ext_f 0xff ||| H.irqmset_swgen1_set_f ||| H.irqmset_swgen0_set_f |||
    H.irqmset_exterr_set_f ||| H.irqmset_halt_set_f ||| H.irqmset_wdtmr_set_f

/-- The value `msenc_boot` writes to the interrupt destination register. -/
def irqdest_value (H : hw_msenc) : Nat :=
  H.irqdest_host_ext_f 0xff ||| H.irqdest_host_swgen1_host_f |||
    H.irqdest_host_swgen0_host_f ||| H.irqdest_host_exterr_host_f |||
    H.irqdest_host_halt_host_f

/-- The value `msenc_boot` writes to the interface enable register. -/
def itfen_value (H : hw_msenc) : Nat :=
  H.itfen_mthden_enable_f ||| H.itfen_ctxen_enable_f

/-- The part of `msenc_boot` that follows the transfers: interrupt and
interface setup, boot vector, start of the CPU and the final wait. -/
def msenc_boot_start (E : env) (t : List event) : Int × List event :=
  let t := nvhost_device_writel t reg.irqmset (irqmset_value E.hw)
  let t := nvhost_device_writel t reg.irqdest (irqdest_value E.hw)
  let t := nvhost_device_writel t reg.itfen (itfen_value E.hw)
  let t := nvhost_device_writel t reg.bootvec (E.hw.bootvec_vec_f 0)
  let t := nvhost_device_writel t reg.cpuctl E.hw.cpuctl_startcpu_true_f
  let w := msenc_wait_idle E 0 t
  if w.1 ≠ 0 then (w.1, dev_err w.2.2 "boot failed due to timeout")
  else (0, w.2.2)

/-- The function `msenc_boot`; `m` is `get_msenc(dev)`.  Returns the return value and the
trace, or `none` when the data loop did not finish within `fuel` iterations. -/
def msenc_boot (E : env) (fuel : Nat) (m : Option msenc) (t : List event) :
    Option (Int × List event) :=
  match m with
  | none => some (-ENOMEDIUM, t)
  | some m =>
    if !m.valid then some (-ENOMEDIUM, t)
    else
      let t := nvhost_device_writel t reg.dmactl 0
      let t := nvhost_device_writel t reg.dmatrfbase
        ((E.sg_dma_address m.pa + m.os.bin_data_offset) % 2 ^ E.dma_addr_bits / 256)
      match msenc_boot_data_loop E m fuel 0 t with
      | none => none
      | some t =>
        let t := (msenc_dma_pa_to_internal_256b E m.os.code_offset 0 true t).2.2
        some (msenc_boot_start E t)

/-- The arguments of the block transfers recorded in a trace, in order. -/
def dma_calls : List event → List (Nat × Nat × Bool)
  | [] => []
  | event.dma_pa_to_internal_256b o i f :: t => (o, i, f) :: dma_calls t
  | _ :: t => dma_calls t

/-- The register writes recorded in a trace, in order. -/
def register_writes : List event → List (reg × Nat)
  | [] => []
  | event.writel r v :: t => (r, v) :: register_writes t
  | _ :: t => register_writes t

/-- Field encodings in the style of `hw_msenc.h`, used to evaluate the
definitions on concrete runs. -/
def sample_hw : hw_msenc where
  dmatrfcmd_size_256b_f := 0x600
  dmatrfcmd_imem_true_f := 0x10
  dmatrfcmd_idle_v := fun r => (r >>> 1) &&& 1
  dmatrfcmd_idle_true_v := 1
  dmatrffboffs_offs_f := fun v => v &&& 0xffffffff
  dmatrfmoffs_offs_f := fun v => v &&& 0xffff
  irqmset_ext_f := fun v => (v &&& 0xff) <<< 8
  irqmset_swgen1_set_f := 0x80
  irqmset_swgen0_set_f := 0x40
  irqmset_exterr_set_f := 0x20
  irqmset_halt_set_f := 0x10
  irqmset_wdtmr_set_f := 0x2
  irqdest_host_ext_f := fun v => (v &&& 0xff) <<< 8
  irqdest_host_swgen1_host_f := 0x80
  irqdest_host_swgen0_host_f := 0x40
  irqdest_host_exterr_host_f := 0x20
  irqdest_host_halt_host_f := 0x10
  itfen_mthden_enable_f := 0x2
  itfen_ctxen_enable_f := 0x1
  bootvec_vec_f := fun v => v &&& 0xffffffff
  cpuctl_startcpu_true_f := 0x2

/-- A device that is idle at once: the DMA engine reports idle on every read and
the idle-state register reads zero. -/
def env_idle : env where
  hw := sample_hw
  device := fun _ r => if r = reg.dmatrfcmd then 2 else 0
  sg_dma_address := fun _ => 0x80000000
  dma_addr_bits := 32

/-- A device whose DMA engine never reports idle while its idle-state register
reads zero. -/
def env_dma_stuck : env where
  hw := sample_hw
  device := fun _ _ => 0
  sg_dma_address := fun _ => 0x80000000
  dma_addr_bits := 32

/-- A staged descriptor with a 600 byte data segment. -/
def msenc_600 : msenc where
  valid := true
  mem_r := kptr.valid 0x1000
  os := { size := 0x2000, bin_data_offset := 0x100, data_offset := 0, data_size := 600,
          code_offset := 0x400 }
  pa := kptr.valid 0x2000
  mapped := kptr.valid 0x3000

/-! ## Staging: `msenc_read_ucode` and `nvhost_msenc_deinit` -/

def PAGE_SIZE : Nat := 4096

/-- The kernel macro `roundup(x, y)`. -/
def roundup (x y : Nat) : Nat := (x + (y - 1)) / y * y

/-- The kernel predicate `IS_ERR`. -/
def IS_ERR : kptr → Bool
  | kptr.err _ => true
  | _ => false

/-- The kernel predicate `IS_ERR_OR_NULL`. -/
def IS_ERR_OR_NULL : kptr → Bool
  | kptr.valid _ => false
  | _ => true

/-- The kernel function `PTR_ERR`, applied to an error pointer. -/
def PTR_ERR : kptr → Int
  | kptr.err e => -(e : Int)
  | kptr.null => 0
  | kptr.valid a => a

/-- The C truth value of a pointer: anything but `NULL`. -/
def kptr.nonnull : kptr → Bool
  | kptr.null => false
  | _ => true

/-- What the collaborators answer during one call of `msenc_read_ucode`: the
firmware loader, the three memory-manager calls, and the content of the mapping. -/
structure staging_env where
  fw : Option firmware
  alloc_ret : kptr
  pin_ret : kptr
  mmap_ret : kptr
  mapped_mem : Mem

/-- The three release blocks that both the `clean_up` label of `msenc_read_ucode` and
`nvhost_msenc_deinit` spell out: unmap if `m->mapped`, unpin if `m->pa`, put if
`m->mem_r`, each followed by clearing the member. -/
def release_blocks (m : msenc) (t : List event) : msenc × List event :=
  let s1 : msenc × List event :=
    if m.mapped.nonnull then
      ({ m with mapped := kptr.null }, t ++ [event.memmgr_munmap m.mem_r m.mapped])
    else (m, t)
  let s2 : msenc × List event :=
    if s1.1.pa.nonnull then
      ({ s1.1 with pa := kptr.null }, s1.2 ++ [event.memmgr_unpin s1.1.mem_r s1.1.pa])
    else s1
  if s2.1.mem_r.nonnull then
    ({ s2.1 with mem_r := kptr.null }, s2.2 ++ [event.memmgr_put s2.1.mem_r])
  else s2

/-- The `clean_up` label of `msenc_read_ucode`. -/
def msenc_read_ucode_clean_up (err : Int) (m : msenc) (t : List event) :
    Int × msenc × List event :=
  let s := release_blocks m t
  (err, s.1, s.2 ++ [event.release_firmware])

/-- The function `msenc_read_ucode`; `m` is `get_msenc(dev)` on entry.  Returns the return
value, the `struct msenc` on exit and the trace. -/
def msenc_read_ucode (S : staging_env) (m : msenc) (t : List event) :
    Int × msenc × List event :=
  match S.fw with
  | none =>
    (-ENOENT, m,
      dev_err (t ++ [event.request_firmware false]) "failed to get msenc firmware\n")
  | some ucode_fw =>
    let t := t ++ [event.request_firmware true]
    let m := { m with mem_r := S.alloc_ret }
    let t := t ++ [event.memmgr_alloc (roundup ucode_fw.size PAGE_SIZE) S.alloc_ret]
    if IS_ERR m.mem_r then
      msenc_read_ucode_clean_up (PTR_ERR m.mem_r) m (dev_err t "nvmap alloc failed")
    else
      let t := t ++ [event.memmgr_pin m.mem_r S.pin_ret]
      let m := { m with pa := S.pin_ret }
      if IS_ERR m.pa then
        msenc_read_ucode_clean_up (PTR_ERR m.pa) { m with pa := kptr.null }
          (dev_err t "nvmap pin failed for ucode")
      else
        let t := t ++ [event.memmgr_mmap m.mem_r S.mmap_ret]
        let m := { m with mapped := S.mmap_ret }
        if IS_ERR_OR_NULL m.mapped then
          msenc_read_ucode_clean_up (-ENOMEM) m (dev_err t "nvmap mmap failed")
        else
          let r := msenc_setup_ucode_image m.os S.mapped_mem ucode_fw
          let t := t ++ r.log.map event.dev_err
          let m := { m with os := r.os }
          if r.ret ≠ 0 then
            (r.ret, m, dev_err t "failed to parse firmware image\n")
          else
            (0, { m with valid := true }, t ++ [event.release_firmware])

/-- The function `nvhost_msenc_deinit`; `scaling_init` is `pdata->scaling_init != NULL` and
`m` is `get_msenc(dev)`.  Returns `get_msenc(dev)` on exit and the trace. -/
def nvhost_msenc_deinit (scaling_init : Bool) (m : Option msenc) (t : List event) :
    Option msenc × List event :=
  let t := if scaling_init then t ++ [event.scale_hw_deinit] else t
  match m with
  | none => (none, t)
  | some m =>
    let s := release_blocks m t
    (none, s.2 ++ [event.kfree_msenc, event.store_valid_after_kfree false])

/-- The `struct msenc` as `nvhost_msenc_init` creates it with `kzalloc`. -/
def msenc_kzalloc : msenc where
  valid := false
  mem_r := kptr.null
  os := ⟨0, 0, 0, 0, 0⟩
  pa := kptr.null
  mapped := kptr.null

/-! ### Resource accounting on traces -/

/-- Number of allocations obtained: `nvhost_memmgr_alloc` calls that returned an object. -/
def allocs_obtained (t : List event) : Nat :=
  t.countP fun e => match e with
    | event.memmgr_alloc _ (kptr.valid _) => true
    | _ => false

/-- Number of `nvhost_memmgr_put` calls. -/
def puts_issued (t : List event) : Nat :=
  t.countP fun e => match e with
    | event.memmgr_put _ => true
    | _ => false

/-- Number of `nvhost_memmgr_unpin` calls. -/
def unpins_issued (t : List event) : Nat :=
  t.countP fun e => match e with
    | event.memmgr_unpin _ _ => true
    | _ => false

/-- Number of `nvhost_memmgr_munmap` calls. -/
def munmaps_issued (t : List event) : Nat :=
  t.countP fun e => match e with
    | event.memmgr_munmap _ _ => true
    | _ => false

/-- Number of `release_firmware` calls. -/
def firmware_releases (t : List event) : Nat :=
  t.countP fun e => match e with
    | event.release_firmware => true
    | _ => false

/-- Allocations obtained and not yet put. -/
def outstanding_allocations (t : List event) : Int :=
  (allocs_obtained t : Int) - (puts_issued t : Int)

/-- A release call whose handle argument is not an object: an unmap of a
mapping that is an error value, an unpin of a pin that is an error value, or
a put of an allocation that is an error value. -/
def releases_failed_handle : event → Bool
  | event.memmgr_munmap _ (kptr.err _) => true
  | event.memmgr_unpin _ (kptr.err _) => true
  | event.memmgr_put (kptr.err _) => true
  | _ => false

/-- All collaborators succeed and hand out distinct objects. -/
def staging_ok (fw : firmware) : staging_env where
  fw := some fw
  alloc_ret := kptr.valid 0x1000
  pin_ret := kptr.valid 0x2000
  mmap_ret := kptr.valid 0x3000
  mapped_mem := fun _ => 0

/-- The allocation fails with `-ENOMEM`. -/
def staging_alloc_fails : staging_env where
  fw := some fw_good
  alloc_ret := kptr.err 12
  pin_ret := kptr.valid 0x2000
  mmap_ret := kptr.valid 0x3000
  mapped_mem := fun _ => 0

/-- The allocation succeeds and the pin fails with `-ENOMEM`. -/
def staging_pin_fails : staging_env where
  fw := some fw_good
  alloc_ret := kptr.valid 0x1000
  pin_ret := kptr.err 12
  mmap_ret := kptr.valid 0x3000
  mapped_mem := fun _ => 0

/-- Allocation and pin succeed and the map returns `ERR_PTR(-ENOMEM)`. -/
def staging_mmap_fails : staging_env where
  fw := some fw_good
  alloc_ret := kptr.valid 0x1000
  pin_ret := kptr.valid 0x2000
  mmap_ret := kptr.err 12
  mapped_mem := fun _ => 0

/-! ## Classes of events and sample descriptors -/

/-- Events of one DMA idle poll: a read of the transfer command register, a
delay, or the time-out line. -/
def is_dma_poll_event : event → Bool
  | event.readl r _ => r = reg.dmatrfcmd
  | event.udelay _ => true
  | event.dev_err msg => msg = "dma idle timeout"
  | _ => false

/-- Events of the transfer phase of `msenc_boot`: the marker of a block
transfer, writes to the DMA registers, and DMA idle polls. -/
def is_transfer_event : event → Bool
  | event.dma_pa_to_internal_256b _ _ _ => true
  | event.writel r _ =>
    r = reg.dmactl || r = reg.dmatrfbase || r = reg.dmatrfmoffs || r = reg.dmatrffboffs
      || r = reg.dmatrfcmd
  | e => is_dma_poll_event e

/-- Events of the final wait of `msenc_boot`: a read of the idle-state register,
a delay, or the boot failure line. -/
def is_idle_wait_event : event → Bool
  | event.readl r _ => r = reg.idlestate
  | event.udelay _ => true
  | event.dev_err msg => msg = "boot failed due to timeout"
  | _ => false

/-- The five register writes of `msenc_boot` between the transfers and the final
wait: interrupt mask, interrupt destination, interface enable, boot vector
(entry point 0) and start of the CPU. -/
def boot_start_writes (H : hw_msenc) : List event :=
  [event.writel reg.irqmset (irqmset_value H % 2 ^ 32),
   event.writel reg.irqdest (irqdest_value H % 2 ^ 32),
   event.writel reg.itfen (itfen_value H % 2 ^ 32),
   event.writel reg.bootvec (H.bootvec_vec_f 0 % 2 ^ 32),
   event.writel reg.cpuctl (H.cpuctl_startcpu_true_f % 2 ^ 32)]

/-- The block transfers `msenc_boot` is to issue for a descriptor: one per 256
bytes of the data segment, then one for the code segment. -/
def expected_dma_calls (os : msenc_os) : List (Nat × Nat × Bool) :=
  (List.range ((os.data_size + 255) / 256)).map
      (fun k => ((os.data_offset + 256 * k) % 2 ^ 32, 256 * k, false))
    ++ [(os.code_offset, 0, true)]

/-- The firmware is missing: there is no `struct msenc`, or its `valid` flag is false. -/
def firmware_missing : Option msenc → Prop
  | none => True
  | some m => m.valid = false

/-- A staged descriptor without a data segment. -/
def msenc_no_data : msenc where
  valid := true
  mem_r := kptr.valid 0x1000
  os := { size := 0x2000, bin_data_offset := 0x100, data_offset := 0, data_size := 0,
          code_offset := 0x400 }
  pa := kptr.valid 0x2000
  mapped := kptr.valid 0x3000

/-- A staged descriptor whose data size is the largest `u32`. -/
def msenc_huge_data : msenc where
  valid := true
  mem_r := kptr.valid 0x1000
  os := { size := 0x2000, bin_data_offset := 0x100, data_offset := 0,
          data_size := 0xFFFFFFFF, code_offset := 0x400 }
  pa := kptr.valid 0x2000
  mapped := kptr.valid 0x3000

/-- A staged descriptor with a 600 byte data segment at offset 0xFFFFFF00. -/
def msenc_high_offset : msenc where
  valid := true
  mem_r := kptr.valid 0x1000
  os := { size := 0x2000, bin_data_offset := 0x100, data_offset := 0xFFFFFF00,
          data_size := 600, code_offset := 0x400 }
  pa := kptr.valid 0x2000
  mapped := kptr.valid 0x3000

/-- A `struct msenc` whose `valid` flag is false. -/
def msenc_invalid : msenc := { msenc_600 with valid := false }

/-- What `msenc_dma_pa_to_internal_256b` appends to the trace before it polls: its
marker and the writes of the internal offset, the source offset and the command. -/
def dma_command_events (H : hw_msenc) (offset internal_offset : Nat) (imem : Bool) :
    List event :=
  [event.dma_pa_to_internal_256b offset internal_offset imem,
   event.writel reg.dmatrfmoffs (H.dmatrfmoffs_offs_f internal_offset % 2 ^ 32),
   event.writel reg.dmatrffboffs (H.dmatrffboffs_offs_f offset % 2 ^ 32),
   event.writel reg.dmatrfcmd
     ((if imem then H.dmatrfcmd_size_256b_f ||| H.dmatrfcmd_imem_true_f
       else H.dmatrfcmd_size_256b_f) % 2 ^ 32)]

/-- The DMA engine never reports idle: no read of the transfer command register
ever carries the idle value in its idle field. -/
def dma_never_idle (E : env) : Prop :=
  ∀ t, E.hw.dmatrfcmd_idle_true_v
    ≠ E.hw.dmatrfcmd_idle_v (E.device t reg.dmatrfcmd % 2 ^ 32)

/-! ## Counting on traces, held handles -/

/-- Number of reads of register `r` recorded in a trace. -/
def reads_of (r : reg) : List event → Nat
  | [] => 0
  | event.readl r2 _ :: t => (if r2 = r then 1 else 0) + reads_of r t
  | _ :: t => reads_of r t

/-- The values written to register `r` in a trace, in order. -/
def writes_to (r : reg) : List event → List Nat
  | [] => []
  | event.writel r2 v :: t => if r2 = r then v :: writes_to r t else writes_to r t
  | _ :: t => writes_to r t

/-- The sum of the delays (`udelay`) recorded in a trace, in microseconds. -/
def total_delay : List event → Nat
  | [] => 0
  | event.udelay usecs :: t => usecs + total_delay t
  | _ :: t => total_delay t

/-- Number of `kfree(m)` calls. -/
def kfrees_issued (t : List event) : Nat :=
  t.countP fun e => match e with
    | event.kfree_msenc => true
    | _ => false

/-- The idle-state register never reads zero. -/
def idle_never_zero (E : env) : Prop :=
  ∀ t, E.device t reg.idlestate % 2 ^ 32 ≠ 0

/-- One if the pointer is not `NULL`, zero otherwise. -/
def kptr.held (p : kptr) : Nat := if p.nonnull then 1 else 0

/-- Number of mappings a device holds through its `struct msenc`. -/
def mappings_held : Option msenc → Nat
  | none => 0
  | some m => m.mapped.held

/-- Number of pins a device holds through its `struct msenc`. -/
def pins_held : Option msenc → Nat
  | none => 0
  | some m => m.pa.held

/-- Number of allocations a device holds through its `struct msenc`. -/
def allocations_held : Option msenc → Nat
  | none => 0
  | some m => m.mem_r.held

/-- A device on which neither the DMA engine nor the core ever becomes idle. -/
def env_never_idle : env where
  hw := sample_hw
  device := fun _ r => if r = reg.idlestate then 1 else 0
  sg_dma_address := fun _ => 0x80000000
  dma_addr_bits := 32

/-- A device whose DMA engine is idle at once and whose idle-state register
reads 1 on its first two reads in a trace and 0 from the third on. -/
def env_idle_third : env where
  hw := sample_hw
  device := fun t r =>
    if r = reg.dmatrfcmd then 2 else if reads_of reg.idlestate t < 2 then 1 else 0
  sg_dma_address := fun _ => 0x80000000
  dma_addr_bits := 32

/-- A `struct msenc` after a successful staging. -/
def msenc_staged : msenc :=
  (msenc_read_ucode (staging_ok fw_good) msenc_kzalloc []).2.1

/-- No member of the `struct msenc` holds an error value.  This is the case after
every call of `msenc_read_ucode` that was entered with a `struct msenc` of this
kind, in particular one fresh from `kzalloc`. -/
def no_error_handle : Option msenc → Prop
  | none => True
  | some m => IS_ERR m.mapped = false ∧ IS_ERR m.pa = false ∧ IS_ERR m.mem_r = false

/-- A staged descriptor whose data size is one more than `2 ^ 32 - 256`. -/
def msenc_data_0xFFFFFF01 : msenc where
  valid := true
  mem_r := kptr.valid 0x1000
  os := { size := 0x2000, bin_data_offset := 0x100, data_offset := 0,
          data_size := 0xFFFFFF01, code_offset := 0x400 }
  pa := kptr.valid 0x2000
  mapped := kptr.valid 0x3000

/-! # Theorems -/

/-! ## The image parser -/

theorem load32_lt (mem : Mem) (a : Nat) : load32 mem a < 2 ^ 32 := by
  unfold load32
  have h0 := Nat.mod_lt (mem a) (show 256 > 0 by decide)
  have h1 := Nat.mod_lt (mem (a + 1)) (show 256 > 0 by decide)
  have h2 := Nat.mod_lt (mem (a + 2)) (show 256 > 0 by decide)
  have h3 := Nat.mod_lt (mem (a + 3)) (show 256 > 0 by decide)
  omega

/-- Storing a loaded word writes back the four bytes it was loaded from. -/
theorem store32_load32_byte (mem rd : Mem) (a i : Nat) :
    store32 mem a (load32 rd a) i = if a ≤ i ∧ i < a + 4 then rd i % 256 else mem i := by
  unfold store32 load32
  have h0 := Nat.mod_lt (rd a) (show 256 > 0 by decide)
  have h1 := Nat.mod_lt (rd (a + 1)) (show 256 > 0 by decide)
  have h2 := Nat.mod_lt (rd (a + 2)) (show 256 > 0 by decide)
  have h3 := Nat.mod_lt (rd (a + 3)) (show 256 > 0 by decide)
  by_cases e0 : i = a
  · subst e0; simp; omega
  by_cases e1 : i = a + 1
  · subst e1; simp; omega
  by_cases e2 : i = a + 2
  · subst e2; simp; omega
  by_cases e3 : i = a + 3
  · subst e3; simp; omega
  · have : ¬ (a ≤ i ∧ i < a + 4) := by omega
    simp [e0, e1, e2, e3, this]

theorem firmware_byte_mod (fw : firmware) (i : Nat) : fw.byte i % 256 = fw.byte i := by
  unfold firmware.byte; exact Nat.mod_mod _ _

/-- After `n` rounds of the copy loop the first `4 * n` bytes of the buffer are
those of the blob and the rest of the buffer is untouched. -/
theorem copy_loop_byte (fw : firmware) (mem : Mem) (n i : Nat) :
    (List.range n).foldl
      (fun mem w => store32 mem (4 * w) (le32_to_cpu (load32 fw.byte (4 * w)))) mem i
      = if i < 4 * n then fw.byte i else mem i := by
  induction n with
  | zero => simp
  | succ n ih =>
    rw [List.range_succ, List.foldl_append]
    simp only [List.foldl_cons, List.foldl_nil, le32_to_cpu] at ih ⊢
    rw [store32_load32_byte, ih, firmware_byte_mod]
    by_cases h1 : 4 * n ≤ i ∧ i < 4 * n + 4
    · have : i < 4 * (n + 1) := by omega
      simp [h1, this]
    · by_cases h2 : i < 4 * n
      · have : i < 4 * (n + 1) := by omega
        simp [h1, h2, this]
      · have : ¬ i < 4 * (n + 1) := by omega
        simp [h1, h2, this]

theorem copy_image_byte (fw : firmware) (mem : Mem) (i : Nat) :
    copy_image fw mem i = if i < 4 * (fw.size / 4) then fw.byte i else mem i :=
  copy_loop_byte fw mem (fw.size / 4) i

/-- A load that lies inside the copied words returns the word of the blob. -/
theorem load32_copy_image (fw : firmware) (mem : Mem) (a : Nat)
    (h : a + 4 ≤ 4 * (fw.size / 4)) :
    load32 (copy_image fw mem) a = fw.word a := by
  unfold load32 firmware.word load32
  rw [copy_image_byte, copy_image_byte, copy_image_byte, copy_image_byte]
  have e0 : a < 4 * (fw.size / 4) := by omega
  have e1 : a + 1 < 4 * (fw.size / 4) := by omega
  have e2 : a + 2 < 4 * (fw.size / 4) := by omega
  have e3 : a + 3 < 4 * (fw.size / 4) := by omega
  simp [e0, e1, e2, e3]

/-- The outcome of `msenc_setup_ucode_image` when the magic it loads is wrong. -/
theorem setup_of_bad_magic (os : msenc_os) (ucode_ptr : Mem) (fw : firmware)
    (hsz : bin_magic_off + 4 ≤ fw.size) (hm : fw.word bin_magic_off ≠ 0x10de) :
    (msenc_setup_ucode_image os ucode_ptr fw).ret = -EINVAL ∧
    (msenc_setup_ucode_image os ucode_ptr fw).log = ["failed to get firmware magic"] ∧
    (msenc_setup_ucode_image os ucode_ptr fw).os = os ∧
    (msenc_setup_ucode_image os ucode_ptr fw).loads = [bin_magic_off] := by
  simp only [bin_magic_off] at hsz hm
  have k0 : load32 (copy_image fw ucode_ptr) 0 = fw.word 0 :=
    load32_copy_image fw ucode_ptr 0 (by omega)
  simp [msenc_setup_ucode_image, bin_magic_off, k0, hm]

/-- The outcome of `msenc_setup_ucode_image` when the magic is right and the version wrong. -/
theorem setup_of_bad_version (os : msenc_os) (ucode_ptr : Mem) (fw : firmware)
    (hsz : bin_ver_off + 4 ≤ fw.size) (hm : fw.word bin_magic_off = 0x10de)
    (hv : fw.word bin_ver_off ≠ 1) :
    (msenc_setup_ucode_image os ucode_ptr fw).ret = -ENOENT ∧
    (msenc_setup_ucode_image os ucode_ptr fw).log = ["unsupported firmware version"] ∧
    (msenc_setup_ucode_image os ucode_ptr fw).os = os := by
  simp only [bin_magic_off, bin_ver_off] at hsz hm hv
  have k0 : load32 (copy_image fw ucode_ptr) 0 = fw.word 0 :=
    load32_copy_image fw ucode_ptr 0 (by omega)
  have k4 : load32 (copy_image fw ucode_ptr) 4 = fw.word 4 :=
    load32_copy_image fw ucode_ptr 4 (by omega)
  simp [msenc_setup_ucode_image, bin_magic_off, bin_ver_off, k0, k4, hm, hv]

/-- The outcome of `msenc_setup_ucode_image` when magic and version are right and the
declared size exceeds the blob. -/
theorem setup_of_oversize (os : msenc_os) (ucode_ptr : Mem) (fw : firmware)
    (hsz : bin_size_off + 4 ≤ fw.size) (hm : fw.word bin_magic_off = 0x10de)
    (hv : fw.word bin_ver_off = 1) (hs : fw.size < fw.word bin_size_off) :
    (msenc_setup_ucode_image os ucode_ptr fw).ret = -EINVAL ∧
    (msenc_setup_ucode_image os ucode_ptr fw).log = ["ucode image size inconsistency"] ∧
    (msenc_setup_ucode_image os ucode_ptr fw).os = os := by
  simp only [bin_magic_off, bin_ver_off, bin_size_off] at hsz hm hv hs
  have k0 : load32 (copy_image fw ucode_ptr) 0 = fw.word 0 :=
    load32_copy_image fw ucode_ptr 0 (by omega)
  have k4 : load32 (copy_image fw ucode_ptr) 4 = fw.word 4 :=
    load32_copy_image fw ucode_ptr 4 (by omega)
  have k8 : load32 (copy_image fw ucode_ptr) 8 = fw.word 8 :=
    load32_copy_image fw ucode_ptr 8 (by omega)
  simp [msenc_setup_ucode_image, bin_magic_off, bin_ver_off, bin_size_off, k0, k4, k8, hm,
    hv, hs]

/-- Claim C1: for every well-formed image (magic 0x10de, version 1, declared size
within the blob, OS header inside the blob) `msenc_setup_ucode_image` returns 0 and
the stored descriptor has `bin_data_offset`, `code_offset`, `data_offset` and
`data_size` equal to the corresponding words of the blob: `os_bin_data_offset`
of the binary header and `os_code_offset`, `os_data_offset`, `os_data_size` of
the OS header found at `os_bin_header_offset`.  This holds whatever `m->os` and
the staging buffer held before the call. -/
theorem setup_ucode_image_round_trip (os : msenc_os) (ucode_ptr : Mem) (fw : firmware)
    (h : valid_image fw) :
    (msenc_setup_ucode_image os ucode_ptr fw).ret = 0 ∧
    (msenc_setup_ucode_image os ucode_ptr fw).os.bin_data_offset
      = fw.word os_bin_data_offset_off ∧
    (msenc_setup_ucode_image os ucode_ptr fw).os.code_offset
      = fw.word (fw.word os_bin_header_offset_off + os_code_offset_off) ∧
    (msenc_setup_ucode_image os ucode_ptr fw).os.data_offset
      = fw.word (fw.word os_bin_header_offset_off + os_data_offset_off) ∧
    (msenc_setup_ucode_image os ucode_ptr fw).os.data_size
      = fw.word (fw.word os_bin_header_offset_off + os_data_size_off) := by
  obtain ⟨hm, hv, hs, ho⟩ := h
  simp only [bin_magic_off, bin_ver_off, bin_size_off,
    os_bin_header_offset_off, os_header_bytes] at hm hv hs ho
  have k0 : load32 (copy_image fw ucode_ptr) 0 = fw.word 0 :=
    load32_copy_image fw ucode_ptr 0 (by omega)
  have k4 : load32 (copy_image fw ucode_ptr) 4 = fw.word 4 :=
    load32_copy_image fw ucode_ptr 4 (by omega)
  have k8 : load32 (copy_image fw ucode_ptr) 8 = fw.word 8 :=
    load32_copy_image fw ucode_ptr 8 (by omega)
  have k12 : load32 (copy_image fw ucode_ptr) 12 = fw.word 12 :=
    load32_copy_image fw ucode_ptr 12 (by omega)
  have k16 : load32 (copy_image fw ucode_ptr) 16 = fw.word 16 :=
    load32_copy_image fw ucode_ptr 16 (by omega)
  have kc : load32 (copy_image fw ucode_ptr) (fw.word 12 + 0) = fw.word (fw.word 12 + 0) :=
    load32_copy_image fw ucode_ptr _ (by omega)
  have kd : load32 (copy_image fw ucode_ptr) (fw.word 12 + 8) = fw.word (fw.word 12 + 8) :=
    load32_copy_image fw ucode_ptr _ (by omega)
  have ks : load32 (copy_image fw ucode_ptr) (fw.word 12 + 12) = fw.word (fw.word 12 + 12) :=
    load32_copy_image fw ucode_ptr _ (by omega)
  have hs' : ¬ fw.word 8 > fw.size := by omega
  rw [Nat.add_zero] at kc
  simp only [msenc_setup_ucode_image, bin_magic_off, bin_ver_off, bin_size_off,
    os_bin_header_offset_off, os_bin_data_offset_off, os_code_offset_off,
    os_data_offset_off, os_data_size_off, k0, k4, k8, k12, k16, hm, hv]
  simp [hs', kc, kd, ks]

/-- Claim C1 on a concrete image: OS header at byte 24, `os_bin_data_offset` 44,
code at 0x100, data at 0x300, 600 data bytes. -/
theorem setup_ucode_image_round_trip_witness :
    valid_image fw_good ∧
    (msenc_setup_ucode_image os_zero mem_zero fw_good).ret = 0 ∧
    (msenc_setup_ucode_image os_zero mem_zero fw_good).os.bin_data_offset = 44 ∧
    (msenc_setup_ucode_image os_zero mem_zero fw_good).os.code_offset = 0x100 ∧
    (msenc_setup_ucode_image os_zero mem_zero fw_good).os.data_offset = 0x300 ∧
    (msenc_setup_ucode_image os_zero mem_zero fw_good).os.data_size = 600 := by
  have h := setup_ucode_image_round_trip os_zero mem_zero fw_good (by decide)
  refine ⟨by decide, h.1, ?_, ?_, ?_, ?_⟩
  · rw [h.2.1]; decide
  · rw [h.2.2.1]; decide
  · rw [h.2.2.2.1]; decide
  · rw [h.2.2.2.2]; decide

/-- Claim C2: for every image whose `bin_magic` differs from 0x10de,
`msenc_setup_ucode_image` fails with the bad-magic error (`-EINVAL`, logged as
"failed to get firmware magic"), whatever the other fields of the image, the
previous `m->os` and the staging buffer hold; `m->os` is left as it was and no
header field other than the magic is loaded. -/
theorem setup_ucode_image_bad_magic (os : msenc_os) (ucode_ptr : Mem) (fw : firmware)
    (hsz : bin_magic_off + 4 ≤ fw.size) (hm : fw.word bin_magic_off ≠ 0x10de) :
    (msenc_setup_ucode_image os ucode_ptr fw).ret = -EINVAL ∧
    (msenc_setup_ucode_image os ucode_ptr fw).log = ["failed to get firmware magic"] ∧
    (msenc_setup_ucode_image os ucode_ptr fw).os = os ∧
    (msenc_setup_ucode_image os ucode_ptr fw).loads = [bin_magic_off] :=
  setup_of_bad_magic os ucode_ptr fw hsz hm

/-- Claim C2 on a concrete image with magic 0xdead. -/
theorem setup_ucode_image_bad_magic_witness :
    (bin_magic_off + 4 ≤ fw_bad_magic.size ∧ fw_bad_magic.word bin_magic_off ≠ 0x10de) ∧
    (msenc_setup_ucode_image os_zero mem_zero fw_bad_magic).ret = -EINVAL ∧
    (msenc_setup_ucode_image os_zero mem_zero fw_bad_magic).log
      = ["failed to get firmware magic"] ∧
    (msenc_setup_ucode_image os_zero mem_zero fw_bad_magic).os = os_zero ∧
    (msenc_setup_ucode_image os_zero mem_zero fw_bad_magic).loads = [bin_magic_off] :=
  ⟨by decide, setup_ucode_image_bad_magic os_zero mem_zero fw_bad_magic (by decide) (by decide)⟩

/-- Claim C3 as stated fails.  An image that declares more bytes than the blob
holds and also has a wrong magic gets the bad-magic error, one with a wrong
version gets the unsupported-version error, and the return value of the size
error is the very value returned for a bad magic. -/
theorem setup_ucode_image_oversize_counterexample :
    (fw_bad_magic_oversize.size < fw_bad_magic_oversize.word bin_size_off ∧
      (msenc_setup_ucode_image os_zero mem_zero fw_bad_magic_oversize).log
        = ["failed to get firmware magic"]) ∧
    (fw_bad_ver_oversize.size < fw_bad_ver_oversize.word bin_size_off ∧
      (msenc_setup_ucode_image os_zero mem_zero fw_bad_ver_oversize).ret = -ENOENT ∧
      (msenc_setup_ucode_image os_zero mem_zero fw_bad_ver_oversize).log
        = ["unsupported firmware version"]) ∧
    (fw_oversize.size < fw_oversize.word bin_size_off ∧
      fw_bad_magic.word bin_size_off ≤ fw_bad_magic.size ∧
      (msenc_setup_ucode_image os_zero mem_zero fw_oversize).ret
        = (msenc_setup_ucode_image os_zero mem_zero fw_bad_magic).ret) := by
  decide

/-- Claim C3, amended: for every image with magic 0x10de and version 1 whose
declared `bin_size` exceeds the length of the blob, `msenc_setup_ucode_image` fails
with `-EINVAL`, logs "ucode image size inconsistency" and leaves `m->os` as it
was.  The return value differs from the one for an unsupported version; it is the
same as the one for a bad magic, from which only the logged line tells it apart. -/
theorem setup_ucode_image_oversize (os : msenc_os) (ucode_ptr : Mem) (fw : firmware)
    (hsz : bin_size_off + 4 ≤ fw.size) (hm : fw.word bin_magic_off = 0x10de)
    (hv : fw.word bin_ver_off = 1) (hs : fw.size < fw.word bin_size_off) :
    (msenc_setup_ucode_image os ucode_ptr fw).ret = -EINVAL ∧
    (msenc_setup_ucode_image os ucode_ptr fw).log = ["ucode image size inconsistency"] ∧
    (msenc_setup_ucode_image os ucode_ptr fw).os = os ∧
    (∀ os2 mem2 fw2, bin_ver_off + 4 ≤ fw2.size → fw2.word bin_magic_off = 0x10de →
      fw2.word bin_ver_off ≠ 1 →
      (msenc_setup_ucode_image os2 mem2 fw2).ret
        ≠ (msenc_setup_ucode_image os ucode_ptr fw).ret) ∧
    (∀ os2 mem2 fw2, bin_magic_off + 4 ≤ fw2.size → fw2.word bin_magic_off ≠ 0x10de →
      (msenc_setup_ucode_image os2 mem2 fw2).ret
        = (msenc_setup_ucode_image os ucode_ptr fw).ret ∧
      (msenc_setup_ucode_image os2 mem2 fw2).log
        ≠ (msenc_setup_ucode_image os ucode_ptr fw).log) := by
  obtain ⟨r1, r2, r3⟩ := setup_of_oversize os ucode_ptr fw hsz hm hv hs
  refine ⟨r1, r2, r3, ?_, ?_⟩
  · intro os2 mem2 fw2 h1 h2 h3
    rw [(setup_of_bad_version os2 mem2 fw2 h1 h2 h3).1, r1]
    decide
  · intro os2 mem2 fw2 h1 h2
    obtain ⟨q1, q2, _, _⟩ := setup_of_bad_magic os2 mem2 fw2 h1 h2
    rw [q1, q2, r1, r2]
    exact ⟨rfl, by decide⟩

/-- Claim C3, amended, on a concrete 24 byte image that declares 100 bytes. -/
theorem setup_ucode_image_oversize_witness :
    fw_oversize.size < fw_oversize.word bin_size_off ∧
    (msenc_setup_ucode_image os_zero mem_zero fw_oversize).ret = -EINVAL ∧
    (msenc_setup_ucode_image os_zero mem_zero fw_oversize).log
      = ["ucode image size inconsistency"] :=
  have h := setup_ucode_image_oversize os_zero mem_zero fw_oversize (by decide) (by decide)
    (by decide) (by decide)
  ⟨by decide, h.1, h.2.1⟩

/-- Claim C4 fails on the code.  The image `fw_wild_offset` is 24 bytes long, has
magic 0x10de, version 1 and declared size 24, and its `os_bin_header_offset` is
0x10000, far outside the blob and outside the one page allocated for it.
`msenc_setup_ucode_image` reports no error: it returns 0 after loading the three OS
header fields at byte offsets 0x10000, 0x10008 and 0x1000c from `ucode_ptr`,
and stores whatever that memory holds in `m->os`. -/
theorem setup_ucode_image_wild_offset :
    fw_wild_offset.size = 24 ∧
    roundup fw_wild_offset.size 4096 = 4096 ∧
    fw_wild_offset.word bin_magic_off = 0x10de ∧
    fw_wild_offset.word bin_ver_off = 1 ∧
    fw_wild_offset.word bin_size_off ≤ fw_wild_offset.size ∧
    fw_wild_offset.word os_bin_header_offset_off = 0x10000 ∧
    (msenc_setup_ucode_image os_zero mem_ab fw_wild_offset).ret = 0 ∧
    (msenc_setup_ucode_image os_zero mem_ab fw_wild_offset).log = [] ∧
    (msenc_setup_ucode_image os_zero mem_ab fw_wild_offset).loads
      = [0, 4, 8, 12, 20, 16, 0x10000, 0x10008, 0x1000c] ∧
    (msenc_setup_ucode_image os_zero mem_ab fw_wild_offset).os.code_offset = 0xABABABAB ∧
    (msenc_setup_ucode_image os_zero mem_ab fw_wild_offset).os.data_offset = 0xABABABAB ∧
    (msenc_setup_ucode_image os_zero mem_ab fw_wild_offset).os.data_size = 0xABABABAB := by
  decide

/-! ## Traces -/

theorem dma_calls_append (a b : List event) :
    dma_calls (a ++ b) = dma_calls a ++ dma_calls b := by
  induction a with
  | nil => rfl
  | cons e a ih => cases e <;> simp [dma_calls, ih]

theorem dma_calls_of_polls (evs : List event)
    (h : ∀ e ∈ evs, is_dma_poll_event e = true) : dma_calls evs = [] := by
  induction evs with
  | nil => rfl
  | cons e evs ih =>
    have he := h e (List.mem_cons_self _ _)
    have ht := ih (fun x hx => h x (List.mem_cons_of_mem _ hx))
    cases e <;> simp_all [dma_calls, is_dma_poll_event]

theorem transfer_of_poll (e : event) (h : is_dma_poll_event e = true) :
    is_transfer_event e = true := by
  cases e <;> simp_all [is_transfer_event, is_dma_poll_event]

/-! ## The wait loops -/

/-- The DMA wait loop only appends polls to the trace. -/
theorem dma_wait_idle_loop_trace (E : env) (timeout : Nat) (t : List event) :
    ∃ evs, (msenc_dma_wait_idle_loop E timeout t).2.2 = t ++ evs ∧
      ∀ e ∈ evs, is_dma_poll_event e = true := by
  induction timeout using Nat.strong_induction_on generalizing t with
  | _ timeout ih =>
    rw [msenc_dma_wait_idle_loop]
    simp only [nvhost_device_readl, udelay, dev_err]
    split
    · exact ⟨[event.readl reg.dmatrfcmd (E.device t reg.dmatrfcmd % 2 ^ 32)], rfl, by
        simp [is_dma_poll_event]⟩
    · split
      · rename_i h1 h2
        have hlt : timeout - min MSENC_IDLE_CHECK_PERIOD timeout < timeout := by
          simp only [MSENC_IDLE_CHECK_PERIOD] at *
          omega
        obtain ⟨evs, h3, h4⟩ := ih _ hlt
          (t ++ [event.readl reg.dmatrfcmd (E.device t reg.dmatrfcmd % 2 ^ 32)]
            ++ [event.udelay MSENC_IDLE_CHECK_PERIOD])
        refine ⟨event.readl reg.dmatrfcmd (E.device t reg.dmatrfcmd % 2 ^ 32)
          :: event.udelay MSENC_IDLE_CHECK_PERIOD :: evs, ?_, ?_⟩
        · rw [h3]; simp
        · intro e he
          simp only [List.mem_cons] at he
          rcases he with rfl | rfl | he
          · simp [is_dma_poll_event]
          · simp [is_dma_poll_event]
          · exact h4 e he
      · exact ⟨[event.readl reg.dmatrfcmd (E.device t reg.dmatrfcmd % 2 ^ 32),
          event.udelay MSENC_IDLE_CHECK_PERIOD, event.dev_err "dma idle timeout"],
          by simp, by simp [is_dma_poll_event]⟩

/-- The final wait loop only appends idle-state reads and delays, and returns 0 or -1. -/
theorem wait_idle_loop_trace (E : env) (timeout : Nat) (t : List event) :
    ∃ evs, (msenc_wait_idle_loop E timeout t).2.2 = t ++ evs ∧
      (∀ e ∈ evs, is_idle_wait_event e = true) ∧
      ((msenc_wait_idle_loop E timeout t).1 = 0 ∨
        (msenc_wait_idle_loop E timeout t).1 = -1) := by
  induction timeout using Nat.strong_induction_on generalizing t with
  | _ timeout ih =>
    rw [msenc_wait_idle_loop]
    simp only [nvhost_device_readl, udelay]
    split
    · exact ⟨[event.readl reg.idlestate (E.device t reg.idlestate % 2 ^ 32)], rfl, by
        simp [is_idle_wait_event], Or.inl rfl⟩
    · split
      · rename_i h1 h2
        have hlt : timeout - min MSENC_IDLE_CHECK_PERIOD timeout < timeout := by
          simp only [MSENC_IDLE_CHECK_PERIOD] at *
          omega
        obtain ⟨evs, h3, h4, h5⟩ := ih _ hlt
          (t ++ [event.readl reg.idlestate (E.device t reg.idlestate % 2 ^ 32)]
            ++ [event.udelay MSENC_IDLE_CHECK_PERIOD])
        refine ⟨event.readl reg.idlestate (E.device t reg.idlestate % 2 ^ 32)
          :: event.udelay MSENC_IDLE_CHECK_PERIOD :: evs, ?_, ?_, h5⟩
        · rw [h3]; simp
        · intro e he
          simp only [List.mem_cons] at he
          rcases he with rfl | rfl | he
          · simp [is_idle_wait_event]
          · simp [is_idle_wait_event]
          · exact h4 e he
      · exact ⟨[event.readl reg.idlestate (E.device t reg.idlestate % 2 ^ 32),
          event.udelay MSENC_IDLE_CHECK_PERIOD],
          by simp, by simp [is_idle_wait_event], Or.inr rfl⟩

/-- A DMA engine that never reports idle makes the wait loop run into its
time-out: it returns -1 and the last event is the time-out line. -/
theorem dma_wait_idle_loop_stuck (E : env) (h : dma_never_idle E)
    (timeout : Nat) (t : List event) :
    ∃ evs, msenc_dma_wait_idle_loop E timeout t
      = (-1, 0, t ++ evs ++ [event.dev_err "dma idle timeout"]) := by
  induction timeout using Nat.strong_induction_on generalizing t with
  | _ timeout ih =>
    rw [msenc_dma_wait_idle_loop]
    simp only [nvhost_device_readl, udelay, dev_err, if_neg (h t)]
    split
    · rename_i h2
      have hlt : timeout - min MSENC_IDLE_CHECK_PERIOD timeout < timeout := by
        simp only [MSENC_IDLE_CHECK_PERIOD] at *
        omega
      obtain ⟨evs, h3⟩ := ih _ hlt
        (t ++ [event.readl reg.dmatrfcmd (E.device t reg.dmatrfcmd % 2 ^ 32)]
          ++ [event.udelay MSENC_IDLE_CHECK_PERIOD])
      refine ⟨event.readl reg.dmatrfcmd (E.device t reg.dmatrfcmd % 2 ^ 32)
        :: event.udelay MSENC_IDLE_CHECK_PERIOD :: evs, ?_⟩
      rw [h3]; simp
    · rename_i h2
      have h0 : timeout - min MSENC_IDLE_CHECK_PERIOD timeout = 0 := by
        simpa using h2
      exact ⟨[event.readl reg.dmatrfcmd (E.device t reg.dmatrfcmd % 2 ^ 32),
        event.udelay MSENC_IDLE_CHECK_PERIOD], by simp [h0]⟩

/-! ## Block transfers -/

/-- A block transfer issues its three writes and then polls with the default time-out. -/
theorem dma_pa_to_internal_256b_eq (E : env) (o i : Nat) (f : Bool) (t : List event) :
    msenc_dma_pa_to_internal_256b E o i f t
      = msenc_dma_wait_idle_loop E MSENC_IDLE_TIMEOUT_DEFAULT
          (t ++ dma_command_events E.hw o i f) := by
  simp [msenc_dma_pa_to_internal_256b, msenc_dma_wait_idle, nvhost_device_writel,
    dma_command_events]

/-- A block transfer appends its marker, three register writes and polls. -/
theorem dma_pa_to_internal_256b_trace (E : env) (o i : Nat) (f : Bool) (t : List event) :
    ∃ evs, (msenc_dma_pa_to_internal_256b E o i f t).2.2 = t ++ evs ∧
      (∀ e ∈ evs, is_transfer_event e = true) ∧ dma_calls evs = [(o, i, f)] := by
  obtain ⟨evs, h1, h2⟩ := dma_wait_idle_loop_trace E MSENC_IDLE_TIMEOUT_DEFAULT
    (t ++ dma_command_events E.hw o i f)
  refine ⟨dma_command_events E.hw o i f ++ evs, ?_, ?_, ?_⟩
  · rw [dma_pa_to_internal_256b_eq, h1, List.append_assoc]
  · intro e he
    rcases List.mem_append.mp he with he | he
    · simp only [dma_command_events, List.mem_cons, List.mem_singleton,
        List.not_mem_nil, or_false] at he
      rcases he with rfl | rfl | rfl | rfl <;> simp [is_transfer_event]
    · exact transfer_of_poll e (h2 e he)
  · rw [dma_calls_append, dma_calls_of_polls evs h2]
    simp [dma_command_events, dma_calls]

/-- When the DMA engine never reports idle, a block transfer returns -1 and the
events it appends end with the time-out line. -/
theorem dma_pa_to_internal_256b_stuck (E : env) (h : dma_never_idle E) (o i : Nat)
    (f : Bool) (t evs : List event)
    (he : (msenc_dma_pa_to_internal_256b E o i f t).2.2 = t ++ evs) :
    (msenc_dma_pa_to_internal_256b E o i f t).1 = -1 ∧
    event.dev_err "dma idle timeout" ∈ evs := by
  obtain ⟨polls, hp⟩ := dma_wait_idle_loop_stuck E h MSENC_IDLE_TIMEOUT_DEFAULT
    (t ++ dma_command_events E.hw o i f)
  rw [dma_pa_to_internal_256b_eq, hp] at he
  rw [dma_pa_to_internal_256b_eq, hp]
  refine ⟨rfl, ?_⟩
  have h2 : t ++ (dma_command_events E.hw o i f ++ polls
      ++ [event.dev_err "dma idle timeout"]) = t ++ evs := by
    rw [← he]; simp
  rw [← List.append_cancel_left h2]
  simp

/-! ## The boot sequence -/

/-- The data loop, entered at block `k` with `d` blocks to go and more than `d`
units of fuel, finishes after exactly `d` block transfers. -/
theorem boot_data_loop_runs (E : env) (m : msenc)
    (hn : m.os.data_size ≤ 2 ^ 32 - 256) (d : Nat) :
    ∀ (k fuel : Nat) (t : List event), k + d = (m.os.data_size + 255) / 256 → d < fuel →
      ∃ evs, msenc_boot_data_loop E m fuel (256 * k) t = some (t ++ evs) ∧
        (∀ e ∈ evs, is_transfer_event e = true) ∧
        dma_calls evs = (List.range' k d).map
          (fun j => ((m.os.data_offset + 256 * j) % 2 ^ 32, 256 * j, false)) := by
  induction d with
  | zero =>
    intro k fuel t hk hf
    obtain ⟨fuel, rfl⟩ : ∃ f, fuel = f + 1 := ⟨fuel - 1, by omega⟩
    have hge : ¬ 256 * k < m.os.data_size := by omega
    exact ⟨[], by simp [msenc_boot_data_loop, hge], by simp, by simp [dma_calls]⟩
  | succ d ih =>
    intro k fuel t hk hf
    obtain ⟨fuel, rfl⟩ : ∃ f, fuel = f + 1 := ⟨fuel - 1, by omega⟩
    have hlt : 256 * k < m.os.data_size := by omega
    have hnext : (256 * k + 256) % 2 ^ 32 = 256 * (k + 1) := by
      have : 256 * k + 256 < 2 ^ 32 := by omega
      rw [Nat.mod_eq_of_lt this]; ring
    obtain ⟨evs1, h1, h2, h3⟩ := dma_pa_to_internal_256b_trace E
      ((m.os.data_offset + 256 * k) % 2 ^ 32) (256 * k) false t
    obtain ⟨evs2, h4, h5, h6⟩ := ih (k + 1) fuel (t ++ evs1) (by omega) (by omega)
    refine ⟨evs1 ++ evs2, ?_, ?_, ?_⟩
    · rw [msenc_boot_data_loop, if_pos hlt, hnext, h1, h4, List.append_assoc]
    · intro e he
      rcases List.mem_append.mp he with he | he
      · exact h2 e he
      · exact h5 e he
    · rw [dma_calls_append, h3, h6]; rfl

/-- With a data size above `2 ^ 32 - 256` the loop condition holds for every
multiple of 256 a `u32` can hold, so the data loop never reaches its exit. -/
theorem boot_data_loop_diverges (E : env) (m : msenc)
    (hn : 2 ^ 32 - 256 < m.os.data_size) (fuel : Nat) :
    ∀ (offset : Nat) (t : List event), offset % 256 = 0 → offset < 2 ^ 32 →
      msenc_boot_data_loop E m fuel offset t = none := by
  induction fuel with
  | zero => intro offset t _ _; rfl
  | succ fuel ih =>
    intro offset t h1 h2
    have hlt : offset < m.os.data_size := by omega
    rw [msenc_boot_data_loop, if_pos hlt]
    exact ih _ _ (by omega) (Nat.mod_lt _ (by decide))

/-- The tail of `msenc_boot`: the five writes, then the final wait, whose result
is the result of the boot. -/
theorem boot_start_shape (E : env) (t : List event) :
    ∃ wait, (msenc_boot_start E t).2 = t ++ boot_start_writes E.hw ++ wait ∧
      (∀ e ∈ wait, is_idle_wait_event e = true) ∧
      ((msenc_boot_start E t).1 = 0 ∨ (msenc_boot_start E t).1 = -1) ∧
      ((msenc_boot_start E t).1
        = (msenc_wait_idle E 0 (t ++ boot_start_writes E.hw)).1) := by
  have e1 : msenc_wait_idle E 0
      (nvhost_device_writel (nvhost_device_writel (nvhost_device_writel
        (nvhost_device_writel (nvhost_device_writel t reg.irqmset (irqmset_value E.hw))
          reg.irqdest (irqdest_value E.hw)) reg.itfen (itfen_value E.hw))
          reg.bootvec (E.hw.bootvec_vec_f 0)) reg.cpuctl E.hw.cpuctl_startcpu_true_f)
      = msenc_wait_idle E 0 (t ++ boot_start_writes E.hw) := by
    simp [nvhost_device_writel, boot_start_writes]
  obtain ⟨evs, h1, h2, h3⟩ := wait_idle_loop_trace E
    (if (0 : Nat) = 0 then MSENC_IDLE_TIMEOUT_DEFAULT else 0)
    (t ++ boot_start_writes E.hw)
  have h1' : (msenc_wait_idle E 0 (t ++ boot_start_writes E.hw)).2.2
      = t ++ boot_start_writes E.hw ++ evs := h1
  have h3' : (msenc_wait_idle E 0 (t ++ boot_start_writes E.hw)).1 = 0 ∨
      (msenc_wait_idle E 0 (t ++ boot_start_writes E.hw)).1 = -1 := h3
  unfold msenc_boot_start
  simp only [e1]
  by_cases hz : (msenc_wait_idle E 0 (t ++ boot_start_writes E.hw)).1 = 0
  · refine ⟨evs, ?_, h2, ?_, ?_⟩
    · simp [hz, h1']
    · simp [hz]
    · simp [hz]
  · refine ⟨evs ++ [event.dev_err "boot failed due to timeout"], ?_, ?_, ?_, ?_⟩
    · simp [hz, h1', dev_err]
    · intro e he
      rcases List.mem_append.mp he with he | he
      · exact h2 e he
      · simp only [List.mem_singleton] at he
        subst he; simp [is_idle_wait_event]
    · rcases h3' with h | h
      · exact absurd h hz
      · simp [hz, h]
    · simp [hz]

/-- The shape of every run of `msenc_boot` on a valid descriptor: two writes, the
transfer phase, the five start writes, the final wait. -/
theorem boot_shape (E : env) (m : msenc) (t : List event) (fuel : Nat)
    (hv : m.valid = true) (hn : m.os.data_size ≤ 2 ^ 32 - 256)
    (hf : (m.os.data_size + 255) / 256 < fuel) :
    ∃ ret xfer wait,
      msenc_boot E fuel (some m) t
        = some (ret, t ++ xfer ++ boot_start_writes E.hw ++ wait) ∧
      (∀ e ∈ xfer, is_transfer_event e = true) ∧
      dma_calls xfer = expected_dma_calls m.os ∧
      (∀ e ∈ wait, is_idle_wait_event e = true) ∧
      (ret = 0 ∨ ret = -1) ∧
      ret = (msenc_wait_idle E 0 (t ++ xfer ++ boot_start_writes E.hw)).1 ∧
      (dma_never_idle E → event.dev_err "dma idle timeout" ∈ xfer) := by
  let w1 := event.writel reg.dmactl (0 % 2 ^ 32)
  let w2 := event.writel reg.dmatrfbase
    ((E.sg_dma_address m.pa + m.os.bin_data_offset) % 2 ^ E.dma_addr_bits / 256 % 2 ^ 32)
  obtain ⟨evs1, h1, h2, h3⟩ := boot_data_loop_runs E m hn ((m.os.data_size + 255) / 256)
    0 fuel (t ++ [w1, w2]) (by omega) hf
  obtain ⟨evs2, h4, h5, h6⟩ := dma_pa_to_internal_256b_trace E m.os.code_offset 0 true
    (t ++ [w1, w2] ++ evs1)
  obtain ⟨wait, h7, h8, h9, h10⟩ := boot_start_shape E (t ++ [w1, w2] ++ evs1 ++ evs2)
  have hx : t ++ [w1, w2] ++ evs1 ++ evs2 = t ++ ([w1, w2] ++ evs1 ++ evs2) := by
    simp
  refine ⟨(msenc_boot_start E (t ++ [w1, w2] ++ evs1 ++ evs2)).1,
    [w1, w2] ++ evs1 ++ evs2, wait, ?_, ?_, ?_, h8, h9, ?_, ?_⟩
  · have hb : msenc_boot E fuel (some m) t
        = some (msenc_boot_start E (t ++ [w1, w2] ++ evs1 ++ evs2)) := by
      simp only [msenc_boot, hv, nvhost_device_writel, Bool.not_true, Bool.false_eq_true,
        if_false]
      have h1' : msenc_boot_data_loop E m fuel 0
          (t ++ [event.writel reg.dmactl (0 % 2 ^ 32)] ++
            [event.writel reg.dmatrfbase
              ((E.sg_dma_address m.pa + m.os.bin_data_offset) % 2 ^ E.dma_addr_bits / 256
                % 2 ^ 32)]) = some (t ++ [w1, w2] ++ evs1) := by
        have := h1
        simp only [Nat.mul_zero] at this
        simpa [w1, w2] using this
      rw [h1']
      simp only [h4]
    rw [hb, ← hx, ← h7]
  · intro e he
    rcases List.mem_append.mp he with he | he
    · rcases List.mem_append.mp he with he | he
      · simp only [List.mem_cons, List.mem_singleton, List.not_mem_nil, or_false] at he
        rcases he with rfl | rfl <;> simp [is_transfer_event, w1, w2]
      · exact h2 e he
    · exact h5 e he
  · rw [dma_calls_append, dma_calls_append, h3, h6, expected_dma_calls,
      List.range_eq_range']
    simp [dma_calls, w1, w2]
  · rw [h10, hx]
  · intro hs
    exact List.mem_append_right _
      (dma_pa_to_internal_256b_stuck E hs m.os.code_offset 0 true _ evs2 h4).2

/-- Claim C5: whenever the firmware descriptor is absent (`get_msenc(dev)` is
`NULL`) or its `valid` flag is false, `msenc_boot` returns `-ENOMEDIUM` and the
trace on return is the trace on entry: no register is written (or read), so
the register state is unchanged. -/
theorem boot_missing_firmware (E : env) (fuel : Nat) (m : Option msenc) (t : List event)
    (h : firmware_missing m) :
    msenc_boot E fuel m t = some (-ENOMEDIUM, t) ∧
    ∀ r, msenc_boot E fuel m t = some r →
      r.1 = -ENOMEDIUM ∧ r.2 = t ∧ register_writes r.2 = register_writes t := by
  have hb : msenc_boot E fuel m t = some (-ENOMEDIUM, t) := by
    cases m with
    | none => rfl
    | some m =>
      have hv : m.valid = false := h
      simp [msenc_boot, hv]
  refine ⟨hb, ?_⟩
  intro r hr
  rw [hb] at hr
  cases hr
  exact ⟨rfl, rfl, rfl⟩

/-- Claim C5 on two concrete states: no `struct msenc` at all, and one whose
`valid` flag is false, after a write that some earlier code issued. -/
theorem boot_missing_firmware_witness :
    (firmware_missing none ∧
      msenc_boot env_idle 0 none [] = some (-ENOMEDIUM, [])) ∧
    (firmware_missing (some msenc_invalid) ∧
      msenc_boot env_idle 8 (some msenc_invalid) [event.writel reg.dmactl 0]
        = some (-ENOMEDIUM, [event.writel reg.dmactl 0])) :=
  ⟨⟨trivial, (boot_missing_firmware env_idle 0 none [] trivial).1⟩,
   ⟨rfl, (boot_missing_firmware env_idle 8 (some msenc_invalid)
      [event.writel reg.dmactl 0] rfl).1⟩⟩

/-- Claim C7 as stated fails.  With `data_size = 0xFFFFFFFF` the `u32` loop
counter wraps from `0xFFFFFF00` to 0 and the data loop never ends, so
`msenc_boot` does not return for any amount of fuel.  With
`data_offset = 0xFFFFFF00` and 600 data bytes the second and third block are
fetched from source offsets 0 and 0x100, the sums reduced modulo `2 ^ 32`. -/
theorem boot_transfer_counterexample :
    (¬ ∃ fuel r, msenc_boot env_idle fuel (some msenc_huge_data) [] = some r) ∧
    (msenc_boot env_idle 4 (some msenc_high_offset) []).map (fun r => dma_calls r.2)
      = some [(0xFFFFFF00, 0, false), (0, 256, false), (0x100, 512, false),
          (0x400, 0, true)] := by
  constructor
  · rintro ⟨fuel, r, h⟩
    have hd := boot_data_loop_diverges env_idle msenc_huge_data (by decide) fuel 0
      (nvhost_device_writel (nvhost_device_writel [] reg.dmactl 0) reg.dmatrfbase
        ((env_idle.sg_dma_address msenc_huge_data.pa + msenc_huge_data.os.bin_data_offset)
          % 2 ^ env_idle.dma_addr_bits / 256)) (by decide) (by decide)
    have hv : msenc_huge_data.valid = true := rfl
    simp only [msenc_boot, hv, Bool.not_true, Bool.false_eq_true, if_false, hd] at h
    cases h
  · simp [msenc_boot, msenc_boot_data_loop, msenc_dma_pa_to_internal_256b,
      msenc_dma_wait_idle, msenc_dma_wait_idle_loop, msenc_high_offset, env_idle,
      nvhost_device_writel, nvhost_device_readl, sample_hw, msenc_boot_start,
      msenc_wait_idle, msenc_wait_idle_loop, dma_calls]

/-- Claim C7, amended: for every valid descriptor whose data size `n` is at most
`2 ^ 32 - 256` and every device behaviour, `msenc_boot` returns (given more than
`ceil(n / 256)` units of fuel for the data loop) and the block transfers it
invoked are exactly: `ceil(n / 256)` transfers for the data segment, the `k`-th
with source offset `(data_offset + 256 * k) mod 2 ^ 32`, internal destination
`256 * k` and the instruction-memory flag clear, followed by exactly one
transfer for the code segment with source `code_offset`, internal destination 0
and the flag set. -/
theorem boot_transfer_calls (E : env) (m : msenc) (t : List event) (fuel : Nat)
    (hv : m.valid = true) (hn : m.os.data_size ≤ 2 ^ 32 - 256)
    (hf : (m.os.data_size + 255) / 256 < fuel) :
    ∃ r, msenc_boot E fuel (some m) t = some r ∧
      dma_calls r.2 = dma_calls t ++
        ((List.range ((m.os.data_size + 255) / 256)).map
            (fun k => ((m.os.data_offset + 256 * k) % 2 ^ 32, 256 * k, false))
          ++ [(m.os.code_offset, 0, true)]) := by
  obtain ⟨ret, xfer, wait, h1, _, h3, h4, _, _, _⟩ := boot_shape E m t fuel hv hn hf
  refine ⟨_, h1, ?_⟩
  have hs : dma_calls (boot_start_writes E.hw) = [] := by
    simp [boot_start_writes, dma_calls]
  have hw : dma_calls wait = [] := by
    clear h1
    induction wait with
    | nil => rfl
    | cons e wait ih =>
      have he := h4 e (List.mem_cons_self _ _)
      have ht := ih (fun x hx => h4 x (List.mem_cons_of_mem _ hx))
      cases e <;> simp_all [dma_calls, is_idle_wait_event]
  simp only [dma_calls_append, h3, hs, hw, expected_dma_calls, List.append_nil]

/-- Claim C7, amended, on the 600 byte data segment: three data blocks at
offsets 0, 256 and 512, then the code block. -/
theorem boot_transfer_calls_witness :
    (msenc_600.valid = true ∧ msenc_600.os.data_size ≤ 2 ^ 32 - 256) ∧
    ∃ r, msenc_boot env_idle 4 (some msenc_600) [] = some r ∧
      dma_calls r.2 = [(0, 0, false), (256, 256, false), (512, 512, false),
        (0x400, 0, true)] := by
  obtain ⟨r, h1, h2⟩ := boot_transfer_calls env_idle msenc_600 [] 4 rfl (by decide)
    (by decide)
  refine ⟨by decide, r, h1, ?_⟩
  rw [h2]
  decide

/-! ## Staging -/

/-- Claim C8 fails on the code.  When allocation, pin and map all succeed and the
image does not parse (here: wrong magic), `msenc_read_ucode` returns the error of
the parser straight away, without going through `clean_up`: nothing is
unmapped, unpinned, put or released, the `struct msenc` still holds the three
handles, and the `valid` flag is false. -/
theorem read_ucode_parse_failure_releases_nothing :
    msenc_read_ucode (staging_ok fw_bad_magic) msenc_kzalloc []
      = (-EINVAL,
         { msenc_kzalloc with mem_r := kptr.valid 0x1000, pa := kptr.valid 0x2000,
                              mapped := kptr.valid 0x3000 },
         [event.request_firmware true,
          event.memmgr_alloc 4096 (kptr.valid 0x1000),
          event.memmgr_pin (kptr.valid 0x1000) (kptr.valid 0x2000),
          event.memmgr_mmap (kptr.valid 0x1000) (kptr.valid 0x3000),
          event.dev_err "failed to get firmware magic",
          event.dev_err "failed to parse firmware image\n"]) ∧
    (msenc_read_ucode (staging_ok fw_bad_magic) msenc_kzalloc []).2.1.valid = false ∧
    munmaps_issued (msenc_read_ucode (staging_ok fw_bad_magic) msenc_kzalloc []).2.2 = 0 ∧
    unpins_issued (msenc_read_ucode (staging_ok fw_bad_magic) msenc_kzalloc []).2.2 = 0 ∧
    puts_issued (msenc_read_ucode (staging_ok fw_bad_magic) msenc_kzalloc []).2.2 = 0 ∧
    firmware_releases (msenc_read_ucode (staging_ok fw_bad_magic) msenc_kzalloc []).2.2 = 0 ∧
    outstanding_allocations
      (msenc_read_ucode (staging_ok fw_bad_magic) msenc_kzalloc []).2.2 = 1 := by
  decide

/-- Claim C9: when the firmware is found, the allocation succeeds and the pin
fails with `-e`, `msenc_read_ucode` (entered with `m->mapped == NULL`, as after
`kzalloc`) returns `-e` having put the allocation exactly once and released the
firmware, without any unpin or unmap; the number of outstanding allocations is
what it was before the call, and `mem_r`, `pa` and `mapped` are all `NULL`
afterwards. -/
theorem read_ucode_pin_failure (S : staging_env) (m : msenc) (t : List event)
    (fw : firmware) (a e : Nat)
    (hfw : S.fw = some fw) (ha : S.alloc_ret = kptr.valid a)
    (hp : S.pin_ret = kptr.err e) (hm : m.mapped = kptr.null) :
    msenc_read_ucode S m t
      = (-(e : Int), { m with mem_r := kptr.null, pa := kptr.null },
         t ++ [event.request_firmware true,
               event.memmgr_alloc (roundup fw.size PAGE_SIZE) (kptr.valid a),
               event.memmgr_pin (kptr.valid a) (kptr.err e),
               event.dev_err "nvmap pin failed for ucode",
               event.memmgr_put (kptr.valid a),
               event.release_firmware]) ∧
    outstanding_allocations (msenc_read_ucode S m t).2.2 = outstanding_allocations t ∧
    puts_issued (msenc_read_ucode S m t).2.2 = puts_issued t + 1 ∧
    unpins_issued (msenc_read_ucode S m t).2.2 = unpins_issued t ∧
    munmaps_issued (msenc_read_ucode S m t).2.2 = munmaps_issued t ∧
    (msenc_read_ucode S m t).2.1.mem_r = kptr.null ∧
    (msenc_read_ucode S m t).2.1.pa = kptr.null ∧
    (msenc_read_ucode S m t).2.1.mapped = kptr.null := by
  have hr : msenc_read_ucode S m t
      = (-(e : Int), { m with mem_r := kptr.null, pa := kptr.null },
         t ++ [event.request_firmware true,
               event.memmgr_alloc (roundup fw.size PAGE_SIZE) (kptr.valid a),
               event.memmgr_pin (kptr.valid a) (kptr.err e),
               event.dev_err "nvmap pin failed for ucode",
               event.memmgr_put (kptr.valid a),
               event.release_firmware]) := by
    simp [msenc_read_ucode, msenc_read_ucode_clean_up, release_blocks, hfw, ha, hp, hm,
      IS_ERR, PTR_ERR, kptr.nonnull, dev_err]
  refine ⟨hr, ?_⟩
  rw [hr]
  simp [outstanding_allocations, allocs_obtained, puts_issued, unpins_issued,
    munmaps_issued, List.countP_append, List.countP_cons, hm]

/-- Claim C9 on a concrete run: fresh `struct msenc`, allocation at 0x1000, pin
fails with `-ENOMEM`. -/
theorem read_ucode_pin_failure_witness :
    msenc_read_ucode staging_pin_fails msenc_kzalloc []
      = (-12, msenc_kzalloc,
         [event.request_firmware true,
          event.memmgr_alloc 4096 (kptr.valid 0x1000),
          event.memmgr_pin (kptr.valid 0x1000) (kptr.err 12),
          event.dev_err "nvmap pin failed for ucode",
          event.memmgr_put (kptr.valid 0x1000),
          event.release_firmware]) ∧
    outstanding_allocations (msenc_read_ucode staging_pin_fails msenc_kzalloc []).2.2 = 0 :=
  have h := read_ucode_pin_failure staging_pin_fails msenc_kzalloc [] fw_good 0x1000 12
    rfl rfl rfl rfl
  ⟨h.1, h.2.1⟩

/-- Claim C10 fails on the code.  After a failed allocation `m->mem_r` holds
the error value, which is not `NULL`, so `clean_up` passes it to
`nvhost_memmgr_put` although nothing was allocated; after a map that returned
an error value `clean_up` passes that value to `nvhost_memmgr_munmap`.  (The
pin failure path clears `m->pa` before it jumps to `clean_up`.) -/
theorem read_ucode_releases_failed_handle :
    (msenc_read_ucode staging_alloc_fails msenc_kzalloc []
      = (-12, msenc_kzalloc,
         [event.request_firmware true,
          event.memmgr_alloc 4096 (kptr.err 12),
          event.dev_err "nvmap alloc failed",
          event.memmgr_put (kptr.err 12),
          event.release_firmware]) ∧
      allocs_obtained (msenc_read_ucode staging_alloc_fails msenc_kzalloc []).2.2 = 0 ∧
      puts_issued (msenc_read_ucode staging_alloc_fails msenc_kzalloc []).2.2 = 1 ∧
      (msenc_read_ucode staging_alloc_fails msenc_kzalloc []).2.2.any
        releases_failed_handle = true) ∧
    (msenc_read_ucode staging_mmap_fails msenc_kzalloc []
      = (-12, msenc_kzalloc,
         [event.request_firmware true,
          event.memmgr_alloc 4096 (kptr.valid 0x1000),
          event.memmgr_pin (kptr.valid 0x1000) (kptr.valid 0x2000),
          event.memmgr_mmap (kptr.valid 0x1000) (kptr.err 12),
          event.dev_err "nvmap mmap failed",
          event.memmgr_munmap (kptr.valid 0x1000) (kptr.err 12),
          event.memmgr_unpin (kptr.valid 0x1000) (kptr.valid 0x2000),
          event.memmgr_put (kptr.valid 0x1000),
          event.release_firmware]) ∧
      (msenc_read_ucode staging_mmap_fails msenc_kzalloc []).2.2.any
        releases_failed_handle = true) ∧
    (msenc_read_ucode staging_pin_fails msenc_kzalloc []).2.2.any
      releases_failed_handle = false := by
  decide

/-! ## Idle waits that time out -/

theorem reads_of_append (r : reg) (a b : List event) :
    reads_of r (a ++ b) = reads_of r a + reads_of r b := by
  induction a with
  | nil => simp [reads_of]
  | cons e a ih => cases e <;> simp [reads_of, ih, Nat.add_assoc]

theorem writes_to_append (r : reg) (a b : List event) :
    writes_to r (a ++ b) = writes_to r a ++ writes_to r b := by
  induction a with
  | nil => simp [writes_to]
  | cons e a ih =>
    cases e <;> simp [writes_to, ih]
    split <;> simp

theorem total_delay_append (a b : List event) :
    total_delay (a ++ b) = total_delay a + total_delay b := by
  induction a with
  | nil => simp [total_delay]
  | cons e a ih => cases e <;> simp [total_delay, ih, Nat.add_assoc]

/-- With a DMA engine that never reports idle, the DMA wait loop entered with
`T > 0` returns -1 after exactly `ceil(T / 10)` reads and as many delays of 10. -/
theorem dma_wait_idle_loop_timeout (E : env) (h : dma_never_idle E) (T : Nat)
    (t : List event) (hT : 0 < T) :
    ∃ evs, msenc_dma_wait_idle_loop E T t = (-1, 0, t ++ evs) ∧
      reads_of reg.dmatrfcmd evs = (T + 9) / 10 ∧
      total_delay evs = 10 * ((T + 9) / 10) := by
  induction T using Nat.strong_induction_on generalizing t with
  | _ T ih =>
    rw [msenc_dma_wait_idle_loop]
    simp only [nvhost_device_readl, udelay, dev_err, if_neg (h t)]
    split
    · rename_i h2
      have hlt : T - min MSENC_IDLE_CHECK_PERIOD T < T := by
        simp only [MSENC_IDLE_CHECK_PERIOD] at *
        omega
      have hpos : 0 < T - min MSENC_IDLE_CHECK_PERIOD T := by omega
      obtain ⟨evs, h3, h4, h5⟩ := ih _ hlt
        (t ++ [event.readl reg.dmatrfcmd (E.device t reg.dmatrfcmd % 2 ^ 32)]
          ++ [event.udelay MSENC_IDLE_CHECK_PERIOD]) hpos
      refine ⟨event.readl reg.dmatrfcmd (E.device t reg.dmatrfcmd % 2 ^ 32)
        :: event.udelay MSENC_IDLE_CHECK_PERIOD :: evs, ?_, ?_, ?_⟩
      · rw [h3]; simp
      · simp only [reads_of, if_true, h4, MSENC_IDLE_CHECK_PERIOD] at *
        omega
      · simp only [total_delay, h5, MSENC_IDLE_CHECK_PERIOD] at *
        omega
    · rename_i h2
      have h0 : T - min MSENC_IDLE_CHECK_PERIOD T = 0 := by
        simpa using h2
      refine ⟨[event.readl reg.dmatrfcmd (E.device t reg.dmatrfcmd % 2 ^ 32),
        event.udelay MSENC_IDLE_CHECK_PERIOD, event.dev_err "dma idle timeout"], ?_, ?_, ?_⟩
      · simp [h0]
      · simp only [reads_of, if_true, MSENC_IDLE_CHECK_PERIOD] at *
        omega
      · simp only [total_delay, MSENC_IDLE_CHECK_PERIOD] at *
        omega

/-- With an idle-state register that never reads zero, the idle wait loop entered
with `T > 0` returns -1 after exactly `ceil(T / 10)` reads and as many delays of 10. -/
theorem wait_idle_loop_timeout (E : env) (h : idle_never_zero E) (T : Nat)
    (t : List event) (hT : 0 < T) :
    ∃ evs, msenc_wait_idle_loop E T t = (-1, 0, t ++ evs) ∧
      reads_of reg.idlestate evs = (T + 9) / 10 ∧
      total_delay evs = 10 * ((T + 9) / 10) := by
  induction T using Nat.strong_induction_on generalizing t with
  | _ T ih =>
    rw [msenc_wait_idle_loop]
    simp only [nvhost_device_readl, udelay, if_neg (h t)]
    split
    · rename_i h2
      have hlt : T - min MSENC_IDLE_CHECK_PERIOD T < T := by
        simp only [MSENC_IDLE_CHECK_PERIOD] at *
        omega
      have hpos : 0 < T - min MSENC_IDLE_CHECK_PERIOD T := by omega
      obtain ⟨evs, h3, h4, h5⟩ := ih _ hlt
        (t ++ [event.readl reg.idlestate (E.device t reg.idlestate % 2 ^ 32)]
          ++ [event.udelay MSENC_IDLE_CHECK_PERIOD]) hpos
      refine ⟨event.readl reg.idlestate (E.device t reg.idlestate % 2 ^ 32)
        :: event.udelay MSENC_IDLE_CHECK_PERIOD :: evs, ?_, ?_, ?_⟩
      · rw [h3]; simp
      · simp only [reads_of, if_true, h4, MSENC_IDLE_CHECK_PERIOD] at *
        omega
      · simp only [total_delay, h5, MSENC_IDLE_CHECK_PERIOD] at *
        omega
    · rename_i h2
      have h0 : T - min MSENC_IDLE_CHECK_PERIOD T = 0 := by
        simpa using h2
      refine ⟨[event.readl reg.idlestate (E.device t reg.idlestate % 2 ^ 32),
        event.udelay MSENC_IDLE_CHECK_PERIOD], ?_, ?_, ?_⟩
      · simp [h0]
      · simp only [reads_of, if_true, MSENC_IDLE_CHECK_PERIOD] at *
        omega
      · simp only [total_delay, MSENC_IDLE_CHECK_PERIOD] at *
        omega

/-- Claim C12: for both idle-wait loops, when the condition never becomes true
and the initial timeout is `T > 0` (check period 10), the call returns the
timed-out result -1 (with the remaining timeout at 0), reads the register
exactly `ceil(T / 10)` times, hence no more than that, and the total delay `s`
is `10 * ceil(T / 10)`, so that `T - 10 ≤ s < T + 10`.  A call with timeout 0
is the call with the default timeout 10000. -/
theorem wait_idle_timeout (E : env) (T : Nat) (t : List event) (hT : 0 < T) :
    (dma_never_idle E →
      ∃ evs, msenc_dma_wait_idle E T t = (-1, 0, t ++ evs) ∧
        reads_of reg.dmatrfcmd evs = (T + 9) / 10 ∧
        reads_of reg.dmatrfcmd evs ≤ (T + 9) / 10 ∧
        total_delay evs = 10 * ((T + 9) / 10) ∧
        (T : Int) - 10 ≤ (total_delay evs : Int) ∧ total_delay evs < T + 10) ∧
    (idle_never_zero E →
      ∃ evs, msenc_wait_idle E T t = (-1, 0, t ++ evs) ∧
        reads_of reg.idlestate evs = (T + 9) / 10 ∧
        reads_of reg.idlestate evs ≤ (T + 9) / 10 ∧
        total_delay evs = 10 * ((T + 9) / 10) ∧
        (T : Int) - 10 ≤ (total_delay evs : Int) ∧ total_delay evs < T + 10) ∧
    msenc_dma_wait_idle E 0 t = msenc_dma_wait_idle E 10000 t ∧
    msenc_wait_idle E 0 t = msenc_wait_idle E 10000 t := by
  have hne : T ≠ 0 := by omega
  refine ⟨?_, ?_, ?_, ?_⟩
  · intro h
    obtain ⟨evs, h1, h2, h3⟩ := dma_wait_idle_loop_timeout E h T t hT
    refine ⟨evs, ?_, h2, le_of_eq h2, h3, ?_, ?_⟩
    · simp only [msenc_dma_wait_idle, if_neg hne, h1]
    · rw [h3]; omega
    · rw [h3]; omega
  · intro h
    obtain ⟨evs, h1, h2, h3⟩ := wait_idle_loop_timeout E h T t hT
    refine ⟨evs, ?_, h2, le_of_eq h2, h3, ?_, ?_⟩
    · simp only [msenc_wait_idle, if_neg hne, h1]
    · rw [h3]; omega
    · rw [h3]; omega
  · simp [msenc_dma_wait_idle, MSENC_IDLE_TIMEOUT_DEFAULT]
  · simp [msenc_wait_idle, MSENC_IDLE_TIMEOUT_DEFAULT]

/-- Claim C12 for `T = 100` on a device that never becomes idle: both loops time
out after at most 10 reads and a total delay between 90 and 110. -/
theorem wait_idle_timeout_witness :
    (0 < 100 ∧ dma_never_idle env_never_idle ∧ idle_never_zero env_never_idle) ∧
    (∃ evs, msenc_dma_wait_idle env_never_idle 100 [] = (-1, 0, [] ++ evs) ∧
      reads_of reg.dmatrfcmd evs ≤ 10 ∧
      90 ≤ total_delay evs ∧ total_delay evs < 110) ∧
    (∃ evs, msenc_wait_idle env_never_idle 100 [] = (-1, 0, [] ++ evs) ∧
      reads_of reg.idlestate evs ≤ 10 ∧
      90 ≤ total_delay evs ∧ total_delay evs < 110) := by
  have hd : dma_never_idle env_never_idle := by
    intro t
    simp [env_never_idle, sample_hw]
  have hi : idle_never_zero env_never_idle := by
    intro t
    simp [env_never_idle]
  have h := wait_idle_timeout env_never_idle 100 [] (by decide)
  obtain ⟨e1, a1, _, a3, _, a5, a6⟩ := h.1 hd
  obtain ⟨e2, b1, _, b3, _, b5, b6⟩ := h.2.1 hi
  refine ⟨⟨by decide, hd, hi⟩, ⟨e1, a1, ?_, ?_, ?_⟩, ⟨e2, b1, ?_, ?_, ?_⟩⟩ <;> omega

/-! ## Shutdown -/

/-- Claim C11: `nvhost_msenc_deinit` is idempotent on the staging state.  For every
device state (any `struct msenc` or none, any trace, scaling on or off): after
one call `get_msenc(dev)` is `NULL` and no mapping, pin or allocation is held,
the call having issued one unmap, unpin and put for each handle that was not
`NULL` and none else; a second call leaves `get_msenc(dev)` as it is and issues
no unmap, unpin, put or `kfree` (its only possible event is the scaling
shutdown, which is not part of the staging state); and a call made when nothing
is held issues no unmap, unpin or put.  When no member holds an error value,
no release is issued on a failed handle. -/
theorem deinit_idempotent (scaling_init : Bool) (m : Option msenc) (t : List event) :
    ((nvhost_msenc_deinit scaling_init m t).1 = none ∧
      mappings_held (nvhost_msenc_deinit scaling_init m t).1 = 0 ∧
      pins_held (nvhost_msenc_deinit scaling_init m t).1 = 0 ∧
      allocations_held (nvhost_msenc_deinit scaling_init m t).1 = 0) ∧
    (munmaps_issued (nvhost_msenc_deinit scaling_init m t).2
        = munmaps_issued t + mappings_held m ∧
      unpins_issued (nvhost_msenc_deinit scaling_init m t).2
        = unpins_issued t + pins_held m ∧
      puts_issued (nvhost_msenc_deinit scaling_init m t).2
        = puts_issued t + allocations_held m) ∧
    ((nvhost_msenc_deinit scaling_init (nvhost_msenc_deinit scaling_init m t).1
        (nvhost_msenc_deinit scaling_init m t).2).1
        = (nvhost_msenc_deinit scaling_init m t).1 ∧
      (nvhost_msenc_deinit scaling_init (nvhost_msenc_deinit scaling_init m t).1
        (nvhost_msenc_deinit scaling_init m t).2).2
        = (nvhost_msenc_deinit scaling_init m t).2
            ++ (if scaling_init then [event.scale_hw_deinit] else []) ∧
      munmaps_issued (nvhost_msenc_deinit scaling_init
          (nvhost_msenc_deinit scaling_init m t).1
          (nvhost_msenc_deinit scaling_init m t).2).2
        = munmaps_issued (nvhost_msenc_deinit scaling_init m t).2 ∧
      unpins_issued (nvhost_msenc_deinit scaling_init
          (nvhost_msenc_deinit scaling_init m t).1
          (nvhost_msenc_deinit scaling_init m t).2).2
        = unpins_issued (nvhost_msenc_deinit scaling_init m t).2 ∧
      puts_issued (nvhost_msenc_deinit scaling_init
          (nvhost_msenc_deinit scaling_init m t).1
          (nvhost_msenc_deinit scaling_init m t).2).2
        = puts_issued (nvhost_msenc_deinit scaling_init m t).2 ∧
      kfrees_issued (nvhost_msenc_deinit scaling_init
          (nvhost_msenc_deinit scaling_init m t).1
          (nvhost_msenc_deinit scaling_init m t).2).2
        = kfrees_issued (nvhost_msenc_deinit scaling_init m t).2) ∧
    (mappings_held m = 0 ∧ pins_held m = 0 ∧ allocations_held m = 0 →
      munmaps_issued (nvhost_msenc_deinit scaling_init m t).2 = munmaps_issued t ∧
      unpins_issued (nvhost_msenc_deinit scaling_init m t).2 = unpins_issued t ∧
      puts_issued (nvhost_msenc_deinit scaling_init m t).2 = puts_issued t) ∧
    (no_error_handle m →
      ((nvhost_msenc_deinit scaling_init m t).2.drop t.length).any
        releases_failed_handle = false) := by
  rcases m with _ | ⟨v, mem_r, os, pa, mapped⟩
  · cases scaling_init <;>
      simp [nvhost_msenc_deinit, mappings_held, pins_held, allocations_held,
        munmaps_issued, unpins_issued, puts_issued, kfrees_issued, List.countP_append,
        List.countP_cons, releases_failed_handle]
  · cases mapped <;> cases pa <;> cases mem_r <;> cases scaling_init <;>
      simp [nvhost_msenc_deinit, release_blocks, mappings_held, pins_held,
        allocations_held, kptr.held, kptr.nonnull, munmaps_issued, unpins_issued,
        puts_issued, kfrees_issued, List.countP_append, List.countP_cons,
        releases_failed_handle, no_error_handle, IS_ERR]

/-- Claim C11 on the state left by a successful staging: the first shutdown
unmaps, unpins and puts once each, in this order, and frees the `struct msenc`;
the second one does nothing. -/
theorem deinit_idempotent_witness :
    nvhost_msenc_deinit false (some msenc_staged) []
      = (none,
         [event.memmgr_munmap (kptr.valid 0x1000) (kptr.valid 0x3000),
          event.memmgr_unpin (kptr.valid 0x1000) (kptr.valid 0x2000),
          event.memmgr_put (kptr.valid 0x1000),
          event.kfree_msenc,
          event.store_valid_after_kfree false]) ∧
    nvhost_msenc_deinit false (nvhost_msenc_deinit false (some msenc_staged) []).1
        (nvhost_msenc_deinit false (some msenc_staged) []).2
      = nvhost_msenc_deinit false (some msenc_staged) [] ∧
    puts_issued (nvhost_msenc_deinit false (some msenc_staged) []).2 = 1 := by
  have h := deinit_idempotent false (some msenc_staged) []
  refine ⟨by decide, by decide, ?_⟩
  rw [h.2.1.2.2]
  decide

/-! ## The result of the boot -/

theorem writes_to_of_idle_wait (r : reg) (evs : List event)
    (h : ∀ e ∈ evs, is_idle_wait_event e = true) : writes_to r evs = [] := by
  induction evs with
  | nil => rfl
  | cons e evs ih =>
    have he := h e (List.mem_cons_self _ _)
    have ht := ih (fun x hx => h x (List.mem_cons_of_mem _ hx))
    cases e <;> simp_all [writes_to, is_idle_wait_event]

/-- The transfer phase writes neither the core-control nor the boot-vector register. -/
theorem writes_to_of_transfer (r : reg) (hr : r = reg.cpuctl ∨ r = reg.bootvec)
    (evs : List event) (h : ∀ e ∈ evs, is_transfer_event e = true) :
    writes_to r evs = [] := by
  induction evs with
  | nil => rfl
  | cons e evs ih =>
    have he := h e (List.mem_cons_self _ _)
    have ht := ih (fun x hx => h x (List.mem_cons_of_mem _ hx))
    cases e with
    | writel r2 v =>
      have hne : ¬ r2 = r := by
        intro heq
        subst heq
        rcases hr with rfl | rfl <;> simp [is_transfer_event] at he
      simp only [writes_to, if_neg hne, ht]
    | _ => simp only [writes_to, ht]

/-- The transfer phase does not read the idle-state register. -/
theorem reads_idlestate_of_transfer (evs : List event)
    (h : ∀ e ∈ evs, is_transfer_event e = true) : reads_of reg.idlestate evs = 0 := by
  induction evs with
  | nil => rfl
  | cons e evs ih =>
    have he := h e (List.mem_cons_self _ _)
    have ht := ih (fun x hx => h x (List.mem_cons_of_mem _ hx))
    cases e <;> simp_all [reads_of, is_transfer_event, is_dma_poll_event]

/-- The idle wait loop entered with `T > 0`: it appends reads of the idle-state
register and delays, makes at most `ceil(T / 10)` reads, and returns 0 exactly
when one of its reads returned zero, -1 otherwise. -/
theorem wait_idle_loop_result (E : env) (T : Nat) (t : List event) (hT : 0 < T) :
    ∃ ret rem evs, msenc_wait_idle_loop E T t = (ret, rem, t ++ evs) ∧
      (∀ e ∈ evs, is_idle_wait_event e = true) ∧
      reads_of reg.idlestate evs ≤ (T + 9) / 10 ∧
      (ret = 0 ↔ event.readl reg.idlestate 0 ∈ evs) ∧
      (ret = 0 ∨ ret = -1) := by
  induction T using Nat.strong_induction_on generalizing t with
  | _ T ih =>
    rw [msenc_wait_idle_loop]
    simp only [nvhost_device_readl, udelay]
    generalize E.device t reg.idlestate % 2 ^ 32 = v
    by_cases hz : v = 0
    · subst hz
      refine ⟨0, T, [event.readl reg.idlestate 0], ?_, ?_, ?_, ?_, Or.inl rfl⟩
      · rw [if_pos rfl]
      · intro e he
        simp only [List.mem_singleton] at he
        subst he; rfl
      · simp only [reads_of, if_true]
        omega
      · simp
    · rw [if_neg hz]
      have hz2 : ¬ (0 : Nat) = v := fun h => hz h.symm
      have hmem : ∀ l : List event, event.readl reg.idlestate 0 ∈
          event.readl reg.idlestate v :: event.udelay MSENC_IDLE_CHECK_PERIOD :: l
          ↔ event.readl reg.idlestate 0 ∈ l := by
        intro l
        simp [hz2]
      split
      · rename_i h2
        have hlt : T - min MSENC_IDLE_CHECK_PERIOD T < T := by
          simp only [MSENC_IDLE_CHECK_PERIOD] at *
          omega
        have hpos : 0 < T - min MSENC_IDLE_CHECK_PERIOD T := by omega
        obtain ⟨ret, rem, evs, h3, h4, h5, h6, h7⟩ := ih _ hlt
          (t ++ [event.readl reg.idlestate v]
            ++ [event.udelay MSENC_IDLE_CHECK_PERIOD]) hpos
        refine ⟨ret, rem, event.readl reg.idlestate v
          :: event.udelay MSENC_IDLE_CHECK_PERIOD :: evs, ?_, ?_, ?_, ?_, h7⟩
        · rw [h3]; simp
        · intro e he
          simp only [List.mem_cons] at he
          rcases he with rfl | rfl | he
          · simp [is_idle_wait_event]
          · simp [is_idle_wait_event]
          · exact h4 e he
        · simp only [reads_of, if_true, MSENC_IDLE_CHECK_PERIOD] at *
          omega
        · rw [hmem]; exact h6
      · refine ⟨-1, T - min MSENC_IDLE_CHECK_PERIOD T, [event.readl reg.idlestate v,
          event.udelay MSENC_IDLE_CHECK_PERIOD], ?_, ?_, ?_, ?_, Or.inr rfl⟩
        · simp
        · intro e he
          simp only [List.mem_cons, List.mem_singleton, List.not_mem_nil, or_false] at he
          rcases he with rfl | rfl <;> simp [is_idle_wait_event]
        · simp only [reads_of, if_true]
          omega
        · rw [hmem]; simp

/-- The tail of `msenc_boot` in full: the five writes, then at most 1000 reads of
the idle-state register; the result is 0 exactly when one of them returned
zero, otherwise -1 with the failure line as the last event. -/
theorem boot_start_result (E : env) (t : List event) :
    ∃ ret wait, msenc_boot_start E t = (ret, t ++ boot_start_writes E.hw ++ wait) ∧
      (∀ e ∈ wait, is_idle_wait_event e = true) ∧
      reads_of reg.idlestate wait ≤ 1000 ∧
      (ret = 0 ↔ event.readl reg.idlestate 0 ∈ wait) ∧
      (ret ≠ 0 → ret = -1 ∧ event.dev_err "boot failed due to timeout" ∈ wait) := by
  have e1 : msenc_wait_idle E 0
      (nvhost_device_writel (nvhost_device_writel (nvhost_device_writel
        (nvhost_device_writel (nvhost_device_writel t reg.irqmset (irqmset_value E.hw))
          reg.irqdest (irqdest_value E.hw)) reg.itfen (itfen_value E.hw))
          reg.bootvec (E.hw.bootvec_vec_f 0)) reg.cpuctl E.hw.cpuctl_startcpu_true_f)
      = msenc_wait_idle_loop E MSENC_IDLE_TIMEOUT_DEFAULT
          (t ++ boot_start_writes E.hw) := by
    simp [msenc_wait_idle, nvhost_device_writel, boot_start_writes]
  obtain ⟨ret, rem, evs, h1, h2, h3, h4, h5⟩ := wait_idle_loop_result E
    MSENC_IDLE_TIMEOUT_DEFAULT (t ++ boot_start_writes E.hw) (by decide)
  have h3' : reads_of reg.idlestate evs ≤ 1000 := by
    simp only [MSENC_IDLE_TIMEOUT_DEFAULT] at h3
    omega
  unfold msenc_boot_start
  simp only [e1, h1]
  by_cases hz : ret = 0
  · refine ⟨0, evs, by simp [hz], h2, h3', ?_, by simp⟩
    rw [← h4, hz]
  · have hm : ret = -1 := by
      rcases h5 with h | h
      · exact absurd h hz
      · exact h
    have hno : event.readl reg.idlestate 0 ∉ evs := fun h => hz (h4.mpr h)
    refine ⟨-1, evs ++ [event.dev_err "boot failed due to timeout"], ?_, ?_, ?_, ?_, ?_⟩
    · simp [hm, dev_err]
    · intro e he
      rcases List.mem_append.mp he with he | he
      · exact h2 e he
      · simp only [List.mem_singleton] at he
        subst he; simp [is_idle_wait_event]
    · rw [reads_of_append]
      simpa [reads_of] using h3'
    · simp [hno]
    · intro _
      exact ⟨rfl, by simp⟩

/-- On a valid descriptor whose data loop ends, `msenc_boot` is the transfer
phase followed by `msenc_boot_start`. -/
theorem boot_eq_start (E : env) (m : msenc) (t : List event) (fuel : Nat)
    (hv : m.valid = true) (hn : m.os.data_size ≤ 2 ^ 32 - 256)
    (hf : (m.os.data_size + 255) / 256 < fuel) :
    ∃ xfer, msenc_boot E fuel (some m) t = some (msenc_boot_start E (t ++ xfer)) ∧
      ∀ e ∈ xfer, is_transfer_event e = true := by
  let w1 := event.writel reg.dmactl (0 % 2 ^ 32)
  let w2 := event.writel reg.dmatrfbase
    ((E.sg_dma_address m.pa + m.os.bin_data_offset) % 2 ^ E.dma_addr_bits / 256 % 2 ^ 32)
  obtain ⟨evs1, h1, h2, _⟩ := boot_data_loop_runs E m hn ((m.os.data_size + 255) / 256)
    0 fuel (t ++ [w1, w2]) (by omega) hf
  obtain ⟨evs2, h4, h5, _⟩ := dma_pa_to_internal_256b_trace E m.os.code_offset 0 true
    (t ++ [w1, w2] ++ evs1)
  refine ⟨[w1, w2] ++ evs1 ++ evs2, ?_, ?_⟩
  · simp only [msenc_boot, hv, nvhost_device_writel, Bool.not_true, Bool.false_eq_true,
      if_false]
    have h1' : msenc_boot_data_loop E m fuel 0
        (t ++ [event.writel reg.dmactl (0 % 2 ^ 32)] ++
          [event.writel reg.dmatrfbase
            ((E.sg_dma_address m.pa + m.os.bin_data_offset) % 2 ^ E.dma_addr_bits / 256
              % 2 ^ 32)]) = some (t ++ [w1, w2] ++ evs1) := by
      have := h1
      simp only [Nat.mul_zero] at this
      simpa [w1, w2] using this
    rw [h1']
    simp only [h4]
    simp
  · intro e he
    rcases List.mem_append.mp he with he | he
    · rcases List.mem_append.mp he with he | he
      · simp only [List.mem_cons, List.mem_singleton, List.not_mem_nil, or_false] at he
        rcases he with rfl | rfl <;> simp [is_transfer_event, w1, w2]
      · exact h2 e he
    · exact h5 e he

/-- Claim C13 as stated fails.  A descriptor with the valid flag set and
`data_size = 0xFFFFFF01` is valid firmware, yet `msenc_boot` never gets past
its data loop: for no amount of fuel is there a result, neither 0 nor the
time-out error, and the start-CPU write is never reached. -/
theorem boot_result_counterexample :
    msenc_data_0xFFFFFF01.valid = true ∧
    (¬ ∃ fuel r, msenc_boot env_never_idle fuel (some msenc_data_0xFFFFFF01) [] = some r) ∧
    (¬ ∃ fuel t, msenc_boot_data_loop env_never_idle msenc_data_0xFFFFFF01 fuel 0 [] = some t) := by
  refine ⟨rfl, ?_, ?_⟩
  · rintro ⟨fuel, r, h⟩
    have hd := boot_data_loop_diverges env_never_idle msenc_data_0xFFFFFF01 (by decide) fuel 0
      (nvhost_device_writel (nvhost_device_writel [] reg.dmactl 0) reg.dmatrfbase
        ((env_never_idle.sg_dma_address msenc_data_0xFFFFFF01.pa
          + msenc_data_0xFFFFFF01.os.bin_data_offset)
          % 2 ^ env_never_idle.dma_addr_bits / 256)) (by decide) (by decide)
    have hv : msenc_data_0xFFFFFF01.valid = true := rfl
    simp only [msenc_boot, hv, Bool.not_true, Bool.false_eq_true, if_false, hd] at h
    cases h
  · rintro ⟨fuel, t, h⟩
    rw [boot_data_loop_diverges env_never_idle msenc_data_0xFFFFFF01 (by decide) fuel 0 []
      (by decide) (by decide)] at h
    cases h

/-- Claim C13, amended: for every device behaviour and every valid descriptor
whose data size is at most `2 ^ 32 - 256` (so that the data loop ends),
`msenc_boot` returns.  Its events are: a first part without any write to the
core-control register and without any read of the idle-state register; the
write of the boot vector for entry point 0; the start-CPU write to the
core-control register; the final polling window, which holds no further
register write and at most 1000 reads of the idle-state register.  So the
start-CPU write happens exactly once, right after the boot-vector write and
before the first idle-state read.  The result is 0 if and only if some read
of the idle-state register in the polling window returned zero; otherwise it
is -1, logged as "boot failed due to timeout". -/
theorem boot_result (E : env) (m : msenc) (t : List event) (fuel : Nat)
    (hv : m.valid = true) (hn : m.os.data_size ≤ 2 ^ 32 - 256)
    (hf : (m.os.data_size + 255) / 256 < fuel) :
    ∃ ret pre wait,
      msenc_boot E fuel (some m) t
        = some (ret, t ++ pre
            ++ [event.writel reg.bootvec (E.hw.bootvec_vec_f 0 % 2 ^ 32),
                event.writel reg.cpuctl (E.hw.cpuctl_startcpu_true_f % 2 ^ 32)]
            ++ wait) ∧
      writes_to reg.cpuctl pre = [] ∧
      reads_of reg.idlestate pre = 0 ∧
      writes_to reg.cpuctl wait = [] ∧
      writes_to reg.cpuctl (pre
          ++ [event.writel reg.bootvec (E.hw.bootvec_vec_f 0 % 2 ^ 32),
              event.writel reg.cpuctl (E.hw.cpuctl_startcpu_true_f % 2 ^ 32)]
          ++ wait) = [E.hw.cpuctl_startcpu_true_f % 2 ^ 32] ∧
      reads_of reg.idlestate wait ≤ 1000 ∧
      (ret = 0 ↔ event.readl reg.idlestate 0 ∈ wait) ∧
      (ret ≠ 0 → ret = -1 ∧ event.dev_err "boot failed due to timeout" ∈ wait) := by
  obtain ⟨xfer, h1, h2⟩ := boot_eq_start E m t fuel hv hn hf
  obtain ⟨ret, wait, h3, h4, h5, h6, h7⟩ := boot_start_result E (t ++ xfer)
  have hx : writes_to reg.cpuctl xfer = [] :=
    writes_to_of_transfer reg.cpuctl (Or.inl rfl) xfer h2
  have hw : writes_to reg.cpuctl wait = [] := writes_to_of_idle_wait reg.cpuctl wait h4
  have hpre : writes_to reg.cpuctl (xfer ++
      [event.writel reg.irqmset (irqmset_value E.hw % 2 ^ 32),
       event.writel reg.irqdest (irqdest_value E.hw % 2 ^ 32),
       event.writel reg.itfen (itfen_value E.hw % 2 ^ 32)]) = [] := by
    rw [writes_to_append, hx]
    simp [writes_to]
  refine ⟨ret, xfer ++
      [event.writel reg.irqmset (irqmset_value E.hw % 2 ^ 32),
       event.writel reg.irqdest (irqdest_value E.hw % 2 ^ 32),
       event.writel reg.itfen (itfen_value E.hw % 2 ^ 32)], wait, ?_, hpre, ?_, hw, ?_,
    h5, h6, h7⟩
  · rw [h1, h3]
    simp [boot_start_writes]
  · rw [reads_of_append, reads_idlestate_of_transfer xfer h2]
    simp [reads_of]
  · rw [writes_to_append, writes_to_append, hpre, hw]
    simp [writes_to]

/-- Claim C13, amended, on a device whose idle-state register reads 1, 1 and then
0: the boot returns 0 after three reads of the idle-state register. -/
theorem boot_result_witness :
    (msenc_no_data.valid = true ∧ msenc_no_data.os.data_size ≤ 2 ^ 32 - 256) ∧
    (∃ ret pre wait,
      msenc_boot env_idle_third 1 (some msenc_no_data) []
        = some (ret, [] ++ pre
            ++ [event.writel reg.bootvec (env_idle_third.hw.bootvec_vec_f 0 % 2 ^ 32),
                event.writel reg.cpuctl
                  (env_idle_third.hw.cpuctl_startcpu_true_f % 2 ^ 32)]
            ++ wait) ∧
      writes_to reg.cpuctl pre = [] ∧
      reads_of reg.idlestate pre = 0 ∧
      writes_to reg.cpuctl wait = [] ∧
      writes_to reg.cpuctl (pre
          ++ [event.writel reg.bootvec (env_idle_third.hw.bootvec_vec_f 0 % 2 ^ 32),
              event.writel reg.cpuctl
                (env_idle_third.hw.cpuctl_startcpu_true_f % 2 ^ 32)]
          ++ wait) = [env_idle_third.hw.cpuctl_startcpu_true_f % 2 ^ 32] ∧
      reads_of reg.idlestate wait ≤ 1000 ∧
      (ret = 0 ↔ event.readl reg.idlestate 0 ∈ wait) ∧
      (ret ≠ 0 → ret = -1 ∧ event.dev_err "boot failed due to timeout" ∈ wait)) ∧
    msenc_boot env_idle_third 1 (some msenc_no_data) []
      = some (0,
          [event.writel reg.dmactl 0,
           event.writel reg.dmatrfbase 0x800001,
           event.dma_pa_to_internal_256b 0x400 0 true,
           event.writel reg.dmatrfmoffs 0,
           event.writel reg.dmatrffboffs 0x400,
           event.writel reg.dmatrfcmd 0x610,
           event.readl reg.dmatrfcmd 2,
           event.writel reg.irqmset 0xfff2,
           event.writel reg.irqdest 0xfff0,
           event.writel reg.itfen 3,
           event.writel reg.bootvec 0,
           event.writel reg.cpuctl 2,
           event.readl reg.idlestate 1,
           event.udelay 10,
           event.readl reg.idlestate 1,
           event.udelay 10,
           event.readl reg.idlestate 0]) := by
  refine ⟨by decide, boot_result env_idle_third msenc_no_data [] 1 rfl (by decide)
    (by decide), ?_⟩
  simp [msenc_boot, msenc_boot_data_loop, msenc_dma_pa_to_internal_256b,
    msenc_dma_wait_idle, msenc_dma_wait_idle_loop, msenc_no_data, env_idle_third,
    nvhost_device_writel, nvhost_device_readl, sample_hw, msenc_boot_start,
    msenc_wait_idle, msenc_wait_idle_loop, udelay, reads_of, irqmset_value,
    irqdest_value, itfen_value, MSENC_IDLE_TIMEOUT_DEFAULT, MSENC_IDLE_CHECK_PERIOD]
  decide

/-! ## Boot after a transfer that timed out -/

/-- When the DMA engine never reports idle, a block transfer returns -1; what it
appends to the trace is its marker and three writes, polls, and the time-out
line as the last event. -/
theorem dma_pa_to_internal_256b_timeout (E : env) (h : dma_never_idle E) (o i : Nat)
    (f : Bool) (t : List event) :
    ∃ polls, msenc_dma_pa_to_internal_256b E o i f t
        = (-1, 0, t ++ dma_command_events E.hw o i f ++ polls
            ++ [event.dev_err "dma idle timeout"]) ∧
      ∀ e ∈ polls, is_dma_poll_event e = true := by
  obtain ⟨evs, h1⟩ := dma_wait_idle_loop_stuck E h MSENC_IDLE_TIMEOUT_DEFAULT
    (t ++ dma_command_events E.hw o i f)
  obtain ⟨evs2, h2, h3⟩ := dma_wait_idle_loop_trace E MSENC_IDLE_TIMEOUT_DEFAULT
    (t ++ dma_command_events E.hw o i f)
  refine ⟨evs, ?_, ?_⟩
  · rw [dma_pa_to_internal_256b_eq, h1]
  · rw [h1] at h2
    have h4 : t ++ dma_command_events E.hw o i f
        ++ (evs ++ [event.dev_err "dma idle timeout"])
        = t ++ dma_command_events E.hw o i f ++ evs2 := by
      rw [← h2]; simp
    have h5 := List.append_cancel_left h4
    intro e he
    exact h3 e (by rw [← h5]; exact List.mem_append_left _ he)

/-- With a DMA engine that never reports idle and a data segment that is not
empty, the first data block of `msenc_boot` times out, and `msenc_boot` goes on
with the remaining block transfers and with `msenc_boot_start`. -/
theorem boot_after_first_timeout (E : env) (m : msenc) (t : List event) (fuel : Nat)
    (hs : dma_never_idle E) (hv : m.valid = true) (hpos : 0 < m.os.data_size)
    (hn : m.os.data_size ≤ 2 ^ 32 - 256) (hf : (m.os.data_size + 255) / 256 < fuel) :
    ∃ pre rest,
      msenc_boot E fuel (some m) t
        = some (msenc_boot_start E
            (t ++ pre ++ [event.dev_err "dma idle timeout"] ++ rest)) ∧
      dma_calls pre = [(m.os.data_offset % 2 ^ 32, 0, false)] ∧
      (∀ e ∈ rest, is_transfer_event e = true) ∧
      dma_calls rest = (expected_dma_calls m.os).tail := by
  let w1 := event.writel reg.dmactl (0 % 2 ^ 32)
  let w2 := event.writel reg.dmatrfbase
    ((E.sg_dma_address m.pa + m.os.bin_data_offset) % 2 ^ E.dma_addr_bits / 256 % 2 ^ 32)
  obtain ⟨fuel, rfl⟩ : ∃ f, fuel = f + 1 := ⟨fuel - 1, by omega⟩
  obtain ⟨polls, h1, h2⟩ := dma_pa_to_internal_256b_timeout E hs
    ((m.os.data_offset + 0) % 2 ^ 32) 0 false (t ++ [w1, w2])
  obtain ⟨evs1, h3, h4, h5⟩ := boot_data_loop_runs E m hn
    ((m.os.data_size + 255) / 256 - 1) 1 fuel
    (t ++ [w1, w2] ++ dma_command_events E.hw ((m.os.data_offset + 0) % 2 ^ 32) 0 false
      ++ polls ++ [event.dev_err "dma idle timeout"]) (by omega) (by omega)
  obtain ⟨evs2, h6, h7, h8⟩ := dma_pa_to_internal_256b_trace E m.os.code_offset 0 true
    (t ++ [w1, w2] ++ dma_command_events E.hw ((m.os.data_offset + 0) % 2 ^ 32) 0 false
      ++ polls ++ [event.dev_err "dma idle timeout"] ++ evs1)
  refine ⟨[w1, w2] ++ dma_command_events E.hw ((m.os.data_offset + 0) % 2 ^ 32) 0 false
    ++ polls, evs1 ++ evs2, ?_, ?_, ?_, ?_⟩
  · have hloop : msenc_boot_data_loop E m (fuel + 1) 0 (t ++ [w1, w2])
        = some (t ++ [w1, w2]
            ++ dma_command_events E.hw ((m.os.data_offset + 0) % 2 ^ 32) 0 false
            ++ polls ++ [event.dev_err "dma idle timeout"] ++ evs1) := by
      rw [msenc_boot_data_loop, if_pos hpos, h1]
      have h256 : (0 + 256) % 2 ^ 32 = 256 * 1 := by decide
      rw [h256]
      exact h3
    have hb : msenc_boot E (fuel + 1) (some m) t
        = (match msenc_boot_data_loop E m (fuel + 1) 0 (t ++ [w1, w2]) with
          | none => none
          | some t2 => some (msenc_boot_start E
              (msenc_dma_pa_to_internal_256b E m.os.code_offset 0 true t2).2.2)) := by
      simp [msenc_boot, hv, nvhost_device_writel, w1, w2]
    rw [hb, hloop]
    simp only [h6]
    simp
  · rw [dma_calls_append, dma_calls_append, dma_calls_of_polls polls h2]
    simp [dma_calls, dma_command_events, w1, w2]
  · intro e he
    rcases List.mem_append.mp he with he | he
    · exact h4 e he
    · exact h7 e he
  · obtain ⟨k, hk⟩ : ∃ k, (m.os.data_size + 255) / 256 = k + 1 :=
      ⟨(m.os.data_size + 255) / 256 - 1, by omega⟩
    rw [dma_calls_append, h5, h8, expected_dma_calls, List.range_eq_range', hk]
    simp [List.range'_succ]

/-- Claim C6 fails on the code.  On a device whose DMA engine never reports idle
and whose idle-state register reads zero, booting the descriptor with a 600
byte data segment: the transfer of the first data block times out (it returns
-1 and logs "dma idle timeout"), and `msenc_boot`, which discards that value,
does not abort.  After the time-out line it issues the two remaining data
blocks and the code block, writes the boot vector and the start-CPU bit, and
returns 0. -/
theorem boot_starts_cpu_after_dma_timeout :
    dma_never_idle env_dma_stuck ∧
    (msenc_dma_pa_to_internal_256b env_dma_stuck 0 0 false
        [event.writel reg.dmactl 0, event.writel reg.dmatrfbase 0x800001]).1 = -1 ∧
    ∃ pre post, msenc_boot env_dma_stuck 4 (some msenc_600) []
        = some (0, pre ++ [event.dev_err "dma idle timeout"] ++ post) ∧
      dma_calls pre = [(0, 0, false)] ∧
      dma_calls post = [(256, 256, false), (512, 512, false), (0x400, 0, true)] ∧
      writes_to reg.bootvec post = [0] ∧
      writes_to reg.cpuctl post = [2] := by
  have hs : dma_never_idle env_dma_stuck := by
    intro t
    simp [env_dma_stuck, sample_hw]
  have hw : ∀ t, msenc_boot_start env_dma_stuck t
      = (0, t ++ boot_start_writes env_dma_stuck.hw
          ++ [event.readl reg.idlestate 0]) := by
    intro t
    simp [msenc_boot_start, msenc_wait_idle, msenc_wait_idle_loop, nvhost_device_readl,
      nvhost_device_writel, boot_start_writes, env_dma_stuck]
  obtain ⟨polls, hp, _⟩ := dma_pa_to_internal_256b_timeout env_dma_stuck hs 0 0 false
    [event.writel reg.dmactl 0, event.writel reg.dmatrfbase 0x800001]
  obtain ⟨pre, rest, h1, h2, h3, h4⟩ := boot_after_first_timeout env_dma_stuck msenc_600 []
    4 hs rfl (by decide) (by decide) (by decide)
  refine ⟨hs, by rw [hp], pre,
    rest ++ boot_start_writes env_dma_stuck.hw ++ [event.readl reg.idlestate 0],
    ?_, ?_, ?_, ?_, ?_⟩
  · rw [h1, hw]
    simp
  · rw [h2]
    decide
  · rw [dma_calls_append, dma_calls_append, h4]
    decide
  · rw [writes_to_append, writes_to_append,
      writes_to_of_transfer reg.bootvec (Or.inr rfl) rest h3]
    decide
  · rw [writes_to_append, writes_to_append,
      writes_to_of_transfer reg.cpuctl (Or.inl rfl) rest h3]
    decide

end Msenc
